import Mathlib

/-! # fstrm TCP writer: a shallow embedding of `fstrm/tcp_writer.c`

The transport object, the operating-system calls it makes, the lifecycle
operations open, close, read and write, and construction are modelled by
explicit state passing.  (`destroy` only frees the transport.)

* The operating system is a value `OS` holding the table of open descriptors,
  the descriptors that were connected, the bytes accepted by the socket layer
  and a log of every call made, oldest first.
* What the kernel answers to a call is not decided by the program, so every
  operation takes those answers as an argument (`OpenEnv`, the return value of
  `close`, the result of `read_bytes`, a script of `sendmsg` results).
* A `struct iovec` keeps its two fields; the bytes it describes are read from
  a byte memory `Nat → Char`.  The `iov` argument of the write operation is a
  pointer into an array object, so the model receives the contents of that
  array object together with `iovcnt`; an access beyond the array object is
  undefined behaviour and stops the run with `Outcome.out_of_bounds`.
* Segment lengths and byte counts are natural numbers: the sum of the lengths
  of one segment list stays below `2^63`, so `size_t`/`ssize_t` arithmetic
  does not wrap in the write loop.
-/

namespace Fstrm

/-! ## Data model -/

/-- Result code of every lifecycle operation (`fstrm_res_success`,
`fstrm_res_failure`). -/
inductive fstrm_res where
  | success
  | failure
deriving DecidableEq, Repr

/-- One scatter-gather segment, `struct iovec`: base address and length. -/
structure iovec where
  iov_base : Nat
  iov_len : Nat
deriving DecidableEq, Repr

/-- The endpoint, `struct sockaddr_in`: family, port as stored (network byte
order) and IPv4 address as returned by `inet_addr`. -/
structure sockaddr_in where
  sin_family : Nat
  sin_port : Nat
  s_addr : Nat
deriving DecidableEq, Repr

/-- The transport object, `struct fstrm__tcp_writer`. -/
structure fstrm__tcp_writer where
  connected : Bool
  fd : Int
  sa : sockaddr_in
deriving DecidableEq, Repr

/-- The options object, `struct fstrm_tcp_writer_options`; `none` is the NULL
address. -/
structure fstrm_tcp_writer_options where
  socket_addr : Option (List Char)
deriving DecidableEq, Repr

/-! ## The operating system -/

/-- Result of one `sendmsg` call: `-1` with `errno == EINTR`, `-1` with another
`errno`, or the number of bytes accepted. -/
inductive SendRet where
  | eintr
  | error
  | accepted (n : Nat)
deriving DecidableEq, Repr

/-- Result of a call that returns `0` or `-1` (`setsockopt`, `connect`,
`close`). -/
inductive SysRet where
  | ok
  | err
deriving DecidableEq, Repr

/-- Result of one `socket` call: a descriptor, `-1` with `errno == EINVAL`, or
`-1` with another `errno`. -/
inductive SocketRet where
  | fd (n : Nat)
  | einval
  | error
deriving DecidableEq, Repr

/-- The calls the transport makes, with their arguments and, where the model
needs it afterwards, their result. -/
inductive Syscall where
  | socket (ret : SocketRet)
  | fcntl_getfd (fd : Int)
  | fcntl_setfd (fd : Int) (flags : Nat)
  | setsockopt (fd : Int)
  | connect (fd : Int) (sa : sockaddr_in) (ret : SysRet)
  | close (fd : Int)
  | read_bytes (fd : Int) (nbytes : Nat)
  | sendmsg (fd : Int) (iov : List iovec) (ret : SendRet)
deriving DecidableEq, Repr

/-- State of the operating system as far as the transport can change it. -/
structure OS where
  /-- Descriptors that are open. -/
  handles : List Int
  /-- Open descriptors on which `connect` succeeded. -/
  peers : List Int
  /-- Bytes accepted by the socket layer, in order. -/
  sent : List Char
  /-- Every call made so far, oldest first. -/
  calls : List Syscall
deriving DecidableEq, Repr

/-- The value a `socket` call returns to the program. -/
def SocketRet.toInt : SocketRet → Int
  | .fd n => (n : Int)
  | .einval => -1
  | .error => -1

/-- The value a `0`-or-`-1` call returns to the program. -/
def SysRet.toInt : SysRet → Int
  | .ok => 0
  | .err => -1

/-- The program calls `socket`: the call is logged and a returned descriptor
becomes open. -/
def sys_socket (r : SocketRet) (os : OS) : Int × OS :=
  match r with
  | .fd n => (r.toInt, { os with handles := (n : Int) :: os.handles,
                                 calls := os.calls ++ [Syscall.socket r] })
  | _ => (r.toInt, { os with calls := os.calls ++ [Syscall.socket r] })

/-- The program calls `close(fd)`: the descriptor is released (also when the
call reports an error, as on Linux) and the call is logged; `ret` is the
value the kernel returns. -/
def sys_close (ret : SysRet) (fd : Int) (os : OS) : Int × OS :=
  (ret.toInt, { os with handles := os.handles.erase fd,
                        peers := os.peers.erase fd,
                        calls := os.calls ++ [Syscall.close fd] })

/-- The program calls `connect(fd, sa)`: when the call succeeds the descriptor
is connected. -/
def sys_connect (ret : SysRet) (fd : Int) (sa : sockaddr_in) (os : OS) : Int × OS :=
  (ret.toInt, { os with peers := if ret = SysRet.ok then fd :: os.peers else os.peers,
                        calls := os.calls ++ [Syscall.connect fd sa ret] })

/-- The program makes a call that changes no state the model tracks. -/
def sys_log (c : Syscall) (os : OS) : OS :=
  { os with calls := os.calls ++ [c] }

/-! ## Segments and bytes -/

/-- The bytes one segment describes. -/
def seg_bytes (mem : Nat → Char) (s : iovec) : List Char :=
  (List.range s.iov_len).map (fun i => mem (s.iov_base + i))

/-- The bytes a segment array describes, in order. -/
def iov_bytes (mem : Nat → Char) (iov : List iovec) : List Char :=
  (iov.map (seg_bytes mem)).flatten

/-- Sum of the segment lengths: the loop
`for (i = 0; i < iovcnt; i++) nbytes += iov[i].iov_len`. -/
def iov_total (iov : List iovec) : Nat :=
  (iov.map (fun s => s.iov_len)).sum

/-- The program calls `sendmsg(fd, &msg, MSG_NOSIGNAL)` with `msg.msg_iov`
describing `iov`: the socket layer takes the first `n` offered bytes when the
answer is `accepted n`, and nothing otherwise. -/
def sys_sendmsg (mem : Nat → Char) (r : SendRet) (fd : Int) (iov : List iovec) (os : OS) : OS :=
  match r with
  | .accepted n => { os with sent := os.sent ++ (iov_bytes mem iov).take n,
                             calls := os.calls ++ [Syscall.sendmsg fd iov r] }
  | _ => { os with calls := os.calls ++ [Syscall.sendmsg fd iov r] }

/-! ## Lifecycle operations -/

/-- The conditional-compilation switches of `fstrm__tcp_writer_op_open`: which
of the three feature test symbols the platform headers define. -/
structure Platform where
  SOCK_CLOEXEC : Bool
  FD_CLOEXEC : Bool
  SO_NOSIGPIPE : Bool
deriving DecidableEq, Repr

/-- What the kernel answers to the calls of one `open`: the first `socket`
call, the second one (made only after `EINVAL`), `fcntl(F_GETFD)` (`none` is
`-1`), `setsockopt`, `connect` and `close`. -/
structure OpenEnv where
  socket_first : SocketRet
  socket_retry : SocketRet
  fcntl_getfd : Option Nat
  setsockopt : SysRet
  connect : SysRet
  close : SysRet
deriving DecidableEq, Repr

/-- The descriptor allocation at the start of `open`:
`w->fd = socket(...)`, repeated once under `SOCK_CLOEXEC` when the first call
fails with `EINVAL`. -/
def open_socket (p : Platform) (k : OpenEnv) (os : OS) : Int × OS :=
  let s := sys_socket k.socket_first os
  if p.SOCK_CLOEXEC = true ∧ s.1 < 0 ∧ k.socket_first = SocketRet.einval then
    sys_socket k.socket_retry s.2
  else s

/-- The close-on-exec request of `open` (compiled under `FD_CLOEXEC`): read the
descriptor flags and, unless that failed, write them back with `FD_CLOEXEC`
(bit 0) set; the result of the second call is ignored. -/
def open_cloexec (p : Platform) (k : OpenEnv) (fd : Int) (os : OS) : OS :=
  if p.FD_CLOEXEC = true then
    match k.fcntl_getfd with
    | some flags => sys_log (Syscall.fcntl_setfd fd (flags ||| 1)) (sys_log (Syscall.fcntl_getfd fd) os)
    | none => sys_log (Syscall.fcntl_getfd fd) os
  else os

/-- Source: `fstrm__tcp_writer_op_open`. -/
def fstrm__tcp_writer_op_open (p : Platform) (k : OpenEnv) (w : fstrm__tcp_writer) (os : OS) :
    fstrm_res × fstrm__tcp_writer × OS :=
  if w.connected = true then (fstrm_res.success, w, os)
  else
    let s := open_socket p k os
    let w1 := { w with fd := s.1 }
    if s.1 < 0 then (fstrm_res.failure, w1, s.2)
    else
      let os2 := open_cloexec p k s.1 s.2
      if p.SO_NOSIGPIPE = true ∧ k.setsockopt.toInt ≠ 0 then
        (fstrm_res.failure, w1, (sys_close k.close s.1 (sys_log (Syscall.setsockopt s.1) os2)).2)
      else
        let os3 := if p.SO_NOSIGPIPE = true then sys_log (Syscall.setsockopt s.1) os2 else os2
        let c := sys_connect k.connect s.1 w.sa os3
        if c.1 < 0 then (fstrm_res.failure, w1, (sys_close k.close s.1 c.2).2)
        else (fstrm_res.success, { w1 with connected := true }, c.2)

/-- Source: `fstrm__tcp_writer_op_close`; `ret` is what the kernel answers to
`close` if the call is made. -/
def fstrm__tcp_writer_op_close (ret : SysRet) (w : fstrm__tcp_writer) (os : OS) :
    fstrm_res × fstrm__tcp_writer × OS :=
  if w.connected = true then
    let w1 := { w with connected := false }
    let c := sys_close ret w.fd os
    if c.1 ≠ 0 then (fstrm_res.failure, w1, c.2)
    else (fstrm_res.success, w1, c.2)
  else (fstrm_res.failure, w, os)

/-- Modelled from the spec: `read_bytes` (declared in `fstrm-private.h`, which
is not part of the sources at hand) is the shared byte-reading primitive that
either fills the caller's buffer with exactly `nbytes` bytes or fails.
`filled` is whether it manages to; the call is logged. -/
def read_bytes (filled : Bool) (fd : Int) (nbytes : Nat) (os : OS) : Bool × OS :=
  (filled, sys_log (Syscall.read_bytes fd nbytes) os)

/-- Source: `fstrm__tcp_writer_op_read`. -/
def fstrm__tcp_writer_op_read (filled : Bool) (w : fstrm__tcp_writer) (nbytes : Nat) (os : OS) :
    fstrm_res × fstrm__tcp_writer × OS :=
  if w.connected = true then
    let r := read_bytes filled w.fd nbytes os
    if r.1 = true then (fstrm_res.success, w, r.2)
    else (fstrm_res.failure, w, r.2)
  else (fstrm_res.failure, w, os)

/-! ## The vectored write -/

/-- How a run of the write operation ends: it returns a result code, it stays
blocked inside `sendmsg` because the kernel gives no further answer, or it
accesses the segment array outside the array object. -/
inductive Outcome where
  | returned (r : fstrm_res)
  | blocked
  | out_of_bounds
deriving DecidableEq, Repr

/-- Everything a run of the write operation leaves behind: how it ended, the
transport, the contents of the caller's array object and the operating
system. -/
structure WriteRun where
  res : Outcome
  w : fstrm__tcp_writer
  iov : List iovec
  os : OS
deriving DecidableEq, Repr

/-- The walk `while (written >= msg_iov[cur].iov_len) written -= msg_iov[cur++].iov_len`
over the entries from index `cur` on; `none` when the loop test reads past the
last entry of the array object, otherwise the final `cur` and `written`.  The
source compares with `(ssize_t) iov_len`, which for lengths below `2^63` is
the comparison of the numbers made here. -/
def walk_from : List iovec → Nat → Nat → Option (Nat × Nat)
  | [], _, _ => none
  | s :: rest, cur, written =>
    if written ≥ s.iov_len then walk_from rest (cur + 1) (written - s.iov_len)
    else some (cur, written)

/-- The adjustment `msg_iov[cur].iov_base += written; msg_iov[cur].iov_len -= written`. -/
def iov_adjust : List iovec → Nat → Nat → List iovec
  | [], _, _ => []
  | s :: rest, 0, written => { iov_base := s.iov_base + written, iov_len := s.iov_len - written } :: rest
  | s :: rest, cur + 1, written => s :: iov_adjust rest cur written

/-- The `for (;;)` loop of `fstrm__tcp_writer_op_write`.  Every `sendmsg` call
takes the next answer of the script and is handed `msg.msg_iov = iov` with
`msg.msg_iovlen = iovcnt`, two fields the loop never changes: the first
`iovcnt` entries of the array as they stand. -/
def write_loop (mem : Nat → Char) (w : fstrm__tcp_writer) (iovcnt nbytes : Nat) :
    List SendRet → Nat → List iovec → OS → WriteRun
  | [], _, arr, os => { res := Outcome.blocked, w := w, iov := arr, os := os }
  | r :: rest, cur, arr, os =>
    let os1 := sys_sendmsg mem r w.fd (arr.take iovcnt) os
    match r with
    | SendRet.eintr => write_loop mem w iovcnt nbytes rest cur arr os1
    | SendRet.error => { res := Outcome.returned fstrm_res.failure, w := w, iov := arr, os := os1 }
    | SendRet.accepted n =>
      if cur = 0 ∧ n = nbytes then
        { res := Outcome.returned fstrm_res.success, w := w, iov := arr, os := os1 }
      else
        match walk_from (arr.drop cur) cur n with
        | none => { res := Outcome.out_of_bounds, w := w, iov := arr, os := os1 }
        | some (cur1, written) =>
          if cur1 = iovcnt then
            { res := Outcome.returned fstrm_res.success, w := w, iov := arr, os := os1 }
          else
            write_loop mem w iovcnt nbytes rest cur1 (iov_adjust arr cur1 written) os1

/-- Source: `fstrm__tcp_writer_op_write`.  `arr` is the array object `iov`
points into, `iovcnt` the number of entries the caller passes, `script` the
answers of the kernel to the successive `sendmsg` calls. -/
def fstrm__tcp_writer_op_write (mem : Nat → Char) (script : List SendRet)
    (w : fstrm__tcp_writer) (arr : List iovec) (iovcnt : Nat) (os : OS) : WriteRun :=
  if w.connected = false then
    { res := Outcome.returned fstrm_res.failure, w := w, iov := arr, os := os }
  else if arr.length < iovcnt then
    { res := Outcome.out_of_bounds, w := w, iov := arr, os := os }
  else
    write_loop mem w iovcnt (iov_total (arr.take iovcnt)) script 0 arr os

/-! ## Construction -/

/-- What the C library and the machine contribute to construction: the byte
order of the host, the IPv4 text conversion `inet_addr`, and the value `atoi`
returns for a text whose value no `int` can hold (the C standard leaves that
case open). -/
structure Libc where
  little_endian : Bool
  inet_addr : List Char → Nat
  atoi_unrepresentable : List Char → Int

/-- C library: `strchr(s, c)` as the offset of the first `c` in `s`; `none` is
NULL. -/
def strchr : List Char → Char → Option Nat
  | [], _ => none
  | x :: xs, c => if x = c then some 0 else (strchr xs c).map (fun k => k + 1)

/-- C library: `isspace` in the C locale. -/
def isspace (c : Char) : Bool :=
  c = ' ' || c = '\t' || c = '\n' || c = '\x0b' || c = '\x0c' || c = '\r'

/-- C library: `isdigit`. -/
def isdigit (c : Char) : Bool :=
  decide ('0' ≤ c ∧ c ≤ '9')

/-- The value of the longest run of decimal digits at the start of a text,
continuing the value `acc` read so far. -/
def digit_run : List Char → Nat → Nat
  | [], acc => acc
  | c :: cs, acc => if isdigit c = true then digit_run cs (10 * acc + (c.toNat - '0'.toNat)) else acc

/-- The number `atoi` reads: white space is skipped, one sign is taken, then
the digits up to the first other character. -/
def atoi_value (s : List Char) : Int :=
  match s.dropWhile isspace with
  | [] => 0
  | c :: r =>
    if c = '-' then -((digit_run r 0 : Nat) : Int)
    else if c = '+' then ((digit_run r 0 : Nat) : Int)
    else ((digit_run (c :: r) 0 : Nat) : Int)

/-- C library: `atoi` with a 32-bit `int`; a value outside the range of `int`
is left to the library. -/
def atoi (lib : Libc) (s : List Char) : Int :=
  if -2147483648 ≤ atoi_value s ∧ atoi_value s ≤ 2147483647 then atoi_value s
  else lib.atoi_unrepresentable s

/-- Exchange of the two bytes of a 16-bit value. -/
def bswap16 (x : Nat) : Nat :=
  (x % 256) * 256 + (x / 256) % 256

/-- C library: `htons`; the `int` argument is converted to `uint16_t`, and its bytes are
exchanged on a little-endian host. -/
def htons (lib : Libc) (x : Int) : Nat :=
  if lib.little_endian = true then bswap16 (x % 65536).toNat else (x % 65536).toNat

/-- C library: `ntohs`, by which a stored port is read back in host byte order. -/
def ntohs (lib : Libc) (x : Nat) : Nat :=
  if lib.little_endian = true then bswap16 (x % 65536) else x % 65536

/-- The macro `FSTRM_INET_LEN`. -/
def FSTRM_INET_LEN : Nat := 15

/-- The constant `AF_INET`. -/
def AF_INET : Nat := 2

/-- How construction ends: it reads through a null options pointer, or it
returns a transport handle or NULL. -/
inductive InitRun where
  | null_dereference
  | returned (t : Option fstrm__tcp_writer)
deriving DecidableEq, Repr

/-- Modelled from the spec: `fstrm_rdwr_init`, the five `fstrm_rdwr_set_*`
calls and `fstrm_writer_init` belong to the generic writer framework, which is
not part of the sources at hand; they register the transport with the
framework and return the handle through which the framework reaches it, and
allocation does not fail.  The handle is modelled by the transport itself. -/
def fstrm_writer_init (tw : fstrm__tcp_writer) : Option fstrm__tcp_writer :=
  some tw

/-- Source: `fstrm_tcp_writer_init`.  `twopt = none` is the NULL options
pointer; `wopt` is handed to the framework untouched and is left out.  The
host text handed to `inet_addr` is `buf` after
`strncpy(buf, socket_addr, len); buf[len] = 0`, the first `len` characters of
the address. -/
def fstrm_tcp_writer_init (lib : Libc) (twopt : Option fstrm_tcp_writer_options) : InitRun :=
  match twopt with
  | none => InitRun.null_dereference
  | some o =>
    match o.socket_addr with
    | none => InitRun.returned none
    | some addr =>
      match strchr addr ':' with
      | none => InitRun.returned none
      | some k =>
        let len := if k < FSTRM_INET_LEN then k else FSTRM_INET_LEN
        let buf := addr.take len
        InitRun.returned (fstrm_writer_init
          { connected := false, fd := 0,
            sa := { sin_family := AF_INET,
                    sin_port := htons lib (atoi lib (addr.drop (k + 1))),
                    s_addr := lib.inet_addr buf } })

/-! ## Options -/

/-- Modelled from the spec: `my_free` comes from the allocation utilities
(reached through `fstrm-private.h`), which are not part of the sources at hand.
It releases the block a pointer variable refers to and leaves the variable
null: the spec has the setter clear the address when it is handed a null text,
and the destroy function is given the address of the caller's variable.  The
result is the value of the pointer variable afterwards. -/
def my_free (_ptr : Option (List Char)) : Option (List Char) :=
  none

/-- Modelled from the spec: `my_strdup`, from the same allocation utilities,
returns an owned copy of a text; allocation does not fail. -/
def my_strdup (s : List Char) : Option (List Char) :=
  some s

/-- Source: `fstrm_tcp_writer_options_init`, a zeroed options object. -/
def fstrm_tcp_writer_options_init : fstrm_tcp_writer_options :=
  { socket_addr := none }

/-- Source: `fstrm_tcp_writer_options_set_socket_addr`; `socket_addr = none`
is the NULL text. -/
def fstrm_tcp_writer_options_set_socket_addr (twopt : fstrm_tcp_writer_options)
    (socket_addr : Option (List Char)) : fstrm_tcp_writer_options :=
  let released : fstrm_tcp_writer_options := { socket_addr := my_free twopt.socket_addr }
  match socket_addr with
  | some t => { socket_addr := my_strdup t }
  | none => released

/-! ## Sequences of operations -/

/-- One call of a lifecycle operation by the framework, with what the kernel
answers during it. -/
inductive Op where
  | op_open (k : OpenEnv)
  | op_close (ret : SysRet)
  | op_read (filled : Bool) (nbytes : Nat)
  | op_write (mem : Nat → Char) (script : List SendRet) (arr : List iovec) (iovcnt : Nat)

/-- The transport and the operating system after one operation.  A write that
does not return still leaves a state; counting it as reachable only adds
states. -/
def Op.apply (p : Platform) (st : fstrm__tcp_writer × OS) : Op → fstrm__tcp_writer × OS
  | Op.op_open k => (fstrm__tcp_writer_op_open p k st.1 st.2).2
  | Op.op_close ret => (fstrm__tcp_writer_op_close ret st.1 st.2).2
  | Op.op_read filled nbytes => (fstrm__tcp_writer_op_read filled st.1 nbytes st.2).2
  | Op.op_write mem script arr iovcnt =>
    ((fstrm__tcp_writer_op_write mem script st.1 arr iovcnt st.2).w,
     (fstrm__tcp_writer_op_write mem script st.1 arr iovcnt st.2).os)

/-- The state after a sequence of operations, first to last. -/
def run_ops (p : Platform) (ops : List Op) (st : fstrm__tcp_writer × OS) :
    fstrm__tcp_writer × OS :=
  ops.foldl (Op.apply p) st

/-! ## Vocabulary of the properties -/

/-- A script with interrupted calls inserted: `ks` gives, for each answer of
`s` in turn, how many `EINTR` answers are put in front of it (none once `ks`
is used up). -/
def pad_eintr : List Nat → List SendRet → List SendRet
  | _, [] => []
  | [], r :: rs => r :: rs
  | k :: ks, r :: rs => List.replicate k SendRet.eintr ++ r :: pad_eintr ks rs

/-- Whether a `socket` answer is a descriptor. -/
def SocketRet.isFd : SocketRet → Bool
  | SocketRet.fd _ => true
  | _ => false

/-- Whether the socket allocation of an `open` succeeds: the first `socket`
call returns a descriptor, or it fails with `EINVAL` on a platform that then
calls `socket` again and that call returns a descriptor. -/
def socket_allocated (p : Platform) (k : OpenEnv) : Bool :=
  k.socket_first.isFd ||
    (p.SOCK_CLOEXEC && decide (k.socket_first = SocketRet.einval) && k.socket_retry.isFd)

/-- The calls made between two states of the operating system. -/
def calls_since (before after : OS) : List Syscall :=
  after.calls.drop before.calls.length

/-- The number a text of decimal digits denotes. -/
def decimal_value (s : List Char) : Nat :=
  s.foldl (fun acc c => 10 * acc + (c.toNat - '0'.toNat)) 0

/-- What the caller and the peer can see of a run of the write operation: how
it ended, the caller's segment array and the bytes the socket accepted. -/
def WriteRun.visible (r : WriteRun) : Outcome × List iovec × List Char :=
  (r.res, r.iov, r.os.sent)

/-- The bytes a logged `sendmsg` call was offered. -/
def offered_bytes (mem : Nat → Char) : Syscall → List Char
  | Syscall.sendmsg _ iov _ => iov_bytes mem iov
  | _ => []

/-- Whether a logged call is a `close`. -/
def is_close : Syscall → Bool
  | Syscall.close _ => true
  | _ => false

/-- A port text with its leading white space and one sign, if any, taken off. -/
def skip_space_sign (s : List Char) : List Char :=
  match s.dropWhile isspace with
  | [] => []
  | c :: r => if c = '-' ∨ c = '+' then r else c :: r

/-- Whether a text starts with a decimal digit. -/
def starts_with_digit : List Char → Bool
  | [] => false
  | c :: _ => isdigit c

/-- The state invariant of the transport, over the calls `log` made since
construction: while `connected` holds, the descriptor `fd` was returned by a
`socket` call, a later `connect` on it succeeded, no `close` call followed the
`socket` call, and the descriptor is in the tables of open and of connected
descriptors. -/
def fd_live (log : List Syscall) (st : fstrm__tcp_writer × OS) : Prop :=
  st.1.connected = true →
    ∃ (n : Nat) (pre mid post : List Syscall),
      st.1.fd = (n : Int) ∧
      log = pre ++ (Syscall.socket (SocketRet.fd n) ::
        (mid ++ (Syscall.connect (n : Int) st.1.sa SysRet.ok :: post))) ∧
      (∀ c ∈ mid ++ post, is_close c = false) ∧
      (n : Int) ∈ st.2.handles ∧ (n : Int) ∈ st.2.peers

/-- The host part of an address that the text conversion is handed, read off
the claim: the first `min k 15` characters, `k` being the index of the first
`:`. -/
def host_handed (addr : List Char) (k : Nat) : List Char :=
  addr.take (min k 15)

/-! ## Sample data -/

/-- A byte memory holding `text` from address 0 on. -/
def mem_of (text : List Char) : Nat → Char :=
  fun a => text.getD a ' '

/-- A connected transport on descriptor 3. -/
def w_conn : fstrm__tcp_writer :=
  { connected := true, fd := 3, sa := { sin_family := 2, sin_port := 0, s_addr := 0 } }

/-- An operating system in which descriptor 3 is an open, connected socket. -/
def os_conn : OS :=
  { handles := [3], peers := [3], sent := [], calls := [] }

/-- A disconnected transport, as construction leaves it. -/
def w_disc : fstrm__tcp_writer :=
  { connected := false, fd := 0, sa := { sin_family := 2, sin_port := 0, s_addr := 0 } }

/-- The two one-byte segments "a" and "b" over a memory holding "ab". -/
def iov_a_b : List iovec :=
  [{ iov_base := 0, iov_len := 1 }, { iov_base := 1, iov_len := 1 }]

/-- The three segments "ab", "", "cde" over a memory holding "abcde". -/
def iov_ab_cde : List iovec :=
  [{ iov_base := 0, iov_len := 2 }, { iov_base := 2, iov_len := 0 }, { iov_base := 2, iov_len := 3 }]

/-- Whether a logged call is a `sendmsg` that was offered at least one byte and
accepted exactly one. -/
def one_byte_call : Syscall → Bool
  | Syscall.sendmsg _ iov (SendRet.accepted n) => decide (1 ≤ iov_total iov ∧ n = 1)
  | _ => false

/-- Kernel answers under which an `open` goes through: descriptor 4. -/
def env_ok : OpenEnv :=
  { socket_first := SocketRet.fd 4, socket_retry := SocketRet.error, fcntl_getfd := some 0,
    setsockopt := SysRet.ok, connect := SysRet.ok, close := SysRet.ok }

/-- Kernel answers under which `connect` is refused on descriptor 4. -/
def env_refused : OpenEnv :=
  { socket_first := SocketRet.fd 4, socket_retry := SocketRet.error, fcntl_getfd := some 0,
    setsockopt := SysRet.ok, connect := SysRet.err, close := SysRet.ok }

/-- A platform that defines all three feature test symbols. -/
def platform_all : Platform :=
  { SOCK_CLOEXEC := true, FD_CLOEXEC := true, SO_NOSIGPIPE := true }

/-- A little-endian host whose `inet_addr` and out-of-range `atoi` give 0. -/
def libc_le : Libc :=
  { little_endian := true, inet_addr := fun _ => 0, atoi_unrepresentable := fun _ => 0 }

/-- A little-endian host whose `inet_addr` returns the length of the text it
is handed. -/
def libc_len : Libc :=
  { little_endian := true, inet_addr := fun t => t.length, atoi_unrepresentable := fun _ => 0 }

/-- The single segment "ab" over a memory holding "ab". -/
def iov_ab : List iovec :=
  [{ iov_base := 0, iov_len := 2 }]

/-- Interrupted calls at the head of the script change only the call log. -/
theorem write_loop_eintr (mem : Nat → Char) (w : fstrm__tcp_writer) (iovcnt nbytes : Nat)
    (k : Nat) (s : List SendRet) (cur : Nat) (arr : List iovec) (os : OS) :
    ∃ os1 : OS, os1.sent = os.sent ∧
      write_loop mem w iovcnt nbytes (List.replicate k SendRet.eintr ++ s) cur arr os
        = write_loop mem w iovcnt nbytes s cur arr os1 := by
  induction k generalizing os with
  | zero => exact ⟨os, rfl, by simp⟩
  | succ k ih =>
    obtain ⟨os1, h1, h2⟩ := ih (sys_sendmsg mem SendRet.eintr w.fd (arr.take iovcnt) os)
    refine ⟨os1, ?_, ?_⟩
    · simpa [sys_sendmsg] using h1
    · simpa [List.replicate_succ, write_loop] using h2

/-- A script without insertions is the script itself. -/
theorem pad_eintr_nil (s : List SendRet) : pad_eintr [] s = s := by
  cases s <;> rfl

/-- One `sendmsg` call adds to the accepted bytes something that depends on
the earlier state only through the accepted bytes. -/
theorem sys_sendmsg_sent (mem : Nat → Char) (r : SendRet) (fd : Int) (iov : List iovec)
    (os os1 : OS) (h : os.sent = os1.sent) :
    (sys_sendmsg mem r fd iov os).sent = (sys_sendmsg mem r fd iov os1).sent := by
  cases r <;> simp [sys_sendmsg, h]

/-- Inserting interrupted calls in front of answers, and starting from another
call log, changes nothing the caller or the peer can see. -/
theorem write_loop_pad (mem : Nat → Char) (w : fstrm__tcp_writer) (iovcnt nbytes : Nat)
    (s : List SendRet) (ks : List Nat) (cur : Nat) (arr : List iovec) (os os1 : OS)
    (h : os.sent = os1.sent) :
    (write_loop mem w iovcnt nbytes (pad_eintr ks s) cur arr os1).visible
      = (write_loop mem w iovcnt nbytes s cur arr os).visible := by
  induction s generalizing ks cur arr os os1 with
  | nil =>
    cases ks <;> simp [pad_eintr, write_loop, WriteRun.visible, h]
  | cons r rs ih =>
    -- it is enough to treat a script that starts with the answer `r`
    have step : ∀ (ks1 : List Nat) (os2 : OS), os.sent = os2.sent →
        (write_loop mem w iovcnt nbytes (r :: pad_eintr ks1 rs) cur arr os2).visible
          = (write_loop mem w iovcnt nbytes (r :: rs) cur arr os).visible := by
      intro ks1 os2 h2
      have hs := sys_sendmsg_sent mem r w.fd (arr.take iovcnt) os os2 h2
      cases r with
      | eintr =>
        simp only [write_loop]
        exact ih ks1 cur arr _ _ hs
      | error =>
        simp [write_loop, WriteRun.visible, hs]
      | accepted n =>
        simp only [write_loop]
        split
        · simp [WriteRun.visible, hs]
        · split
          · simp [WriteRun.visible, hs]
          · split
            · simp [WriteRun.visible, hs]
            · exact ih ks1 _ _ _ _ hs
    cases ks with
    | nil =>
      have := step [] os1 h
      simpa [pad_eintr, pad_eintr_nil] using this
    | cons k ks1 =>
      obtain ⟨os2, h2, e⟩ := write_loop_eintr mem w iovcnt nbytes k (r :: pad_eintr ks1 rs) cur arr os1
      simp only [pad_eintr]
      rw [e]
      exact step ks1 os2 (h.trans h2.symm)

/-- A script that leaves the loop blocked has used up all its answers, so the
call made next sees the answer that follows: if that is an error other than
`EINTR`, the loop returns failure. -/
theorem write_loop_error (mem : Nat → Char) (w : fstrm__tcp_writer) (iovcnt nbytes : Nat)
    (pre post : List SendRet) (cur : Nat) (arr : List iovec) (os : OS)
    (h : (write_loop mem w iovcnt nbytes pre cur arr os).res = Outcome.blocked) :
    (write_loop mem w iovcnt nbytes (pre ++ SendRet.error :: post) cur arr os).res
      = Outcome.returned fstrm_res.failure := by
  induction pre generalizing cur arr os with
  | nil => simp [write_loop]
  | cons r rs ih =>
    cases r with
    | eintr =>
      simp only [write_loop, List.cons_append] at h ⊢
      exact ih _ _ _ h
    | error => simp [write_loop] at h
    | accepted n =>
      simp only [write_loop, List.cons_append] at h ⊢
      split at h
      · simp at h
      · split at h
        · simp at h
        · split at h
          · simp at h
          · rename_i h1 _ _ _ h2 h3
            simp only [h1, h2, h3, if_false]
            exact ih _ _ _ h

/-! ## The write contract -/

/-- C1 (the code departs from the claim): writing the two segments "a", "b"
over a socket that takes one byte per call returns success although the socket
accepted "aa".  The second `sendmsg` is handed the whole array again, because
`msg.msg_iov` and `msg.msg_iovlen` are never advanced past the segment that
was sent.  With the array object holding one more entry than `iovcnt` the
run returns success; with an array object of exactly `iovcnt` entries the same
run reads `msg_iov[iovcnt]` and is undefined. -/
theorem op_write_success_after_resending :
    iov_bytes (mem_of ['a', 'b']) iov_a_b = ['a', 'b'] ∧
    (fstrm__tcp_writer_op_write (mem_of ['a', 'b']) [SendRet.accepted 1, SendRet.accepted 1]
        w_conn (iov_a_b ++ [{ iov_base := 0, iov_len := 1 }]) 2 os_conn).res
      = Outcome.returned fstrm_res.success ∧
    (fstrm__tcp_writer_op_write (mem_of ['a', 'b']) [SendRet.accepted 1, SendRet.accepted 1]
        w_conn (iov_a_b ++ [{ iov_base := 0, iov_len := 1 }]) 2 os_conn).os.sent
      = ['a', 'a'] ∧
    (fstrm__tcp_writer_op_write (mem_of ['a', 'b']) [SendRet.accepted 1, SendRet.accepted 1]
        w_conn (iov_a_b ++ [{ iov_base := 0, iov_len := 1 }]) 2 os_conn).os.calls
      = [Syscall.sendmsg 3 iov_a_b (SendRet.accepted 1),
         Syscall.sendmsg 3 iov_a_b (SendRet.accepted 1)] ∧
    (fstrm__tcp_writer_op_write (mem_of ['a', 'b']) [SendRet.accepted 1, SendRet.accepted 1]
        w_conn iov_a_b 2 os_conn).res = Outcome.out_of_bounds ∧
    (fstrm__tcp_writer_op_write (mem_of ['a', 'b']) [SendRet.accepted 1, SendRet.accepted 1]
        w_conn iov_a_b 2 os_conn).os.sent = ['a', 'a'] := by
  decide

/-- C2 (the code departs from the claim): over a channel that accepts one byte
per call, writing "ab", "", "cde" never returns success, however many calls
the channel serves.  After five calls, each offered at least one byte, the
socket has accepted "abbbb" and the walk over the consumed bytes reads
`msg_iov[3]`, past the three segments. -/
theorem op_write_one_byte_channel :
    (∀ n : Nat,
      (fstrm__tcp_writer_op_write (mem_of ['a', 'b', 'c', 'd', 'e'])
          (List.replicate n (SendRet.accepted 1)) w_conn iov_ab_cde 3 os_conn).res
        ≠ Outcome.returned fstrm_res.success) ∧
    (∀ n : Nat,
      (fstrm__tcp_writer_op_write (mem_of ['a', 'b', 'c', 'd', 'e'])
          (List.replicate (n + 5) (SendRet.accepted 1)) w_conn iov_ab_cde 3 os_conn).res
        = Outcome.out_of_bounds ∧
      (fstrm__tcp_writer_op_write (mem_of ['a', 'b', 'c', 'd', 'e'])
          (List.replicate (n + 5) (SendRet.accepted 1)) w_conn iov_ab_cde 3 os_conn).os.sent
        = ['a', 'b', 'b', 'b', 'b'] ∧
      ((fstrm__tcp_writer_op_write (mem_of ['a', 'b', 'c', 'd', 'e'])
          (List.replicate (n + 5) (SendRet.accepted 1)) w_conn iov_ab_cde 3 os_conn).os.calls.map
            one_byte_call) = [true, true, true, true, true]) := by
  have five : ∀ n : Nat,
      (fstrm__tcp_writer_op_write (mem_of ['a', 'b', 'c', 'd', 'e'])
          (List.replicate (n + 5) (SendRet.accepted 1)) w_conn iov_ab_cde 3 os_conn).res
        = Outcome.out_of_bounds ∧
      (fstrm__tcp_writer_op_write (mem_of ['a', 'b', 'c', 'd', 'e'])
          (List.replicate (n + 5) (SendRet.accepted 1)) w_conn iov_ab_cde 3 os_conn).os.sent
        = ['a', 'b', 'b', 'b', 'b'] ∧
      ((fstrm__tcp_writer_op_write (mem_of ['a', 'b', 'c', 'd', 'e'])
          (List.replicate (n + 5) (SendRet.accepted 1)) w_conn iov_ab_cde 3 os_conn).os.calls.map
            one_byte_call) = [true, true, true, true, true] := by
    intro n
    refine ⟨rfl, rfl, rfl⟩
  refine ⟨?_, five⟩
  intro n
  rcases n with _ | _ | _ | _ | _ | n
  · decide
  · decide
  · decide
  · decide
  · decide
  · rw [(five n).1]
    decide

/-- C3: in the write operation interrupted `sendmsg` calls are invisible, and
any other `sendmsg` error makes the write fail.  Putting any number of `EINTR`
answers in front of any answers of a script changes neither how the write ends,
nor the caller's segment array, nor the bytes the socket accepted; and when the
answers `pre` are used up without the write returning, an error answer to the
next call makes it return failure. -/
theorem op_write_eintr_invisible (mem : Nat → Char) (w : fstrm__tcp_writer)
    (arr : List iovec) (iovcnt : Nat) (os : OS) (ks : List Nat) (s pre post : List SendRet) :
    (fstrm__tcp_writer_op_write mem (pad_eintr ks s) w arr iovcnt os).visible
      = (fstrm__tcp_writer_op_write mem s w arr iovcnt os).visible ∧
    ((fstrm__tcp_writer_op_write mem pre w arr iovcnt os).res = Outcome.blocked →
      (fstrm__tcp_writer_op_write mem (pre ++ SendRet.error :: post) w arr iovcnt os).res
        = Outcome.returned fstrm_res.failure) := by
  unfold fstrm__tcp_writer_op_write
  constructor
  · split
    · rfl
    · split
      · rfl
      · exact write_loop_pad mem w iovcnt _ s ks 0 arr os os rfl
  · split
    · intro h; simp at h
    · split
      · intro h; simp at h
      · exact write_loop_error mem w iovcnt _ pre post 0 arr os

/-- C3 at the segments "ab", "", "cde": two interrupted calls before the first
answer and one before the second leave the run as it was, and an error after
one accepted byte fails the write. -/
theorem op_write_eintr_invisible_witness :
    (fstrm__tcp_writer_op_write (mem_of ['a', 'b', 'c', 'd', 'e'])
        [SendRet.eintr, SendRet.eintr, SendRet.accepted 1, SendRet.eintr, SendRet.accepted 1]
        w_conn iov_ab_cde 3 os_conn).visible
      = (fstrm__tcp_writer_op_write (mem_of ['a', 'b', 'c', 'd', 'e'])
        [SendRet.accepted 1, SendRet.accepted 1] w_conn iov_ab_cde 3 os_conn).visible ∧
    (fstrm__tcp_writer_op_write (mem_of ['a', 'b', 'c', 'd', 'e'])
        [SendRet.accepted 1] w_conn iov_ab_cde 3 os_conn).res = Outcome.blocked ∧
    (fstrm__tcp_writer_op_write (mem_of ['a', 'b', 'c', 'd', 'e'])
        ([SendRet.accepted 1] ++ SendRet.error :: [SendRet.accepted 4]) w_conn iov_ab_cde 3 os_conn).res
      = Outcome.returned fstrm_res.failure :=
  ⟨(op_write_eintr_invisible (mem_of ['a', 'b', 'c', 'd', 'e']) w_conn iov_ab_cde 3 os_conn
      [2, 1] [SendRet.accepted 1, SendRet.accepted 1] [SendRet.accepted 1] [SendRet.accepted 4]).1,
   by decide,
   (op_write_eintr_invisible (mem_of ['a', 'b', 'c', 'd', 'e']) w_conn iov_ab_cde 3 os_conn
      [2, 1] [SendRet.accepted 1, SendRet.accepted 1] [SendRet.accepted 1] [SendRet.accepted 4]).2
      (by decide)⟩

/-! ## The connection lifecycle -/

/-- C4: on a disconnected transport close, read and write each return failure,
make no call to the operating system (its state, call log included, is what it
was) and leave the transport as it was. -/
theorem disconnected_ops_fail_untouched (ret : SysRet) (filled : Bool) (mem : Nat → Char)
    (script : List SendRet) (w : fstrm__tcp_writer) (nbytes : Nat) (arr : List iovec)
    (iovcnt : Nat) (os : OS) (h : w.connected = false) :
    fstrm__tcp_writer_op_close ret w os = (fstrm_res.failure, w, os) ∧
    fstrm__tcp_writer_op_read filled w nbytes os = (fstrm_res.failure, w, os) ∧
    fstrm__tcp_writer_op_write mem script w arr iovcnt os
      = { res := Outcome.returned fstrm_res.failure, w := w, iov := arr, os := os } := by
  simp [fstrm__tcp_writer_op_close, fstrm__tcp_writer_op_read, fstrm__tcp_writer_op_write, h]

/-- C4 at a freshly constructed transport, with a kernel that would serve
every call. -/
theorem disconnected_ops_fail_untouched_witness :
    w_disc.connected = false ∧
    fstrm__tcp_writer_op_close SysRet.ok w_disc os_conn = (fstrm_res.failure, w_disc, os_conn) ∧
    fstrm__tcp_writer_op_read true w_disc 4 os_conn = (fstrm_res.failure, w_disc, os_conn) ∧
    fstrm__tcp_writer_op_write (mem_of ['a', 'b']) [SendRet.accepted 2] w_disc iov_a_b 2 os_conn
      = { res := Outcome.returned fstrm_res.failure, w := w_disc, iov := iov_a_b, os := os_conn } :=
  ⟨rfl, disconnected_ops_fail_untouched SysRet.ok true (mem_of ['a', 'b']) [SendRet.accepted 2]
      w_disc 4 iov_a_b 2 os_conn rfl⟩

/-- C5 as stated fails: on a connected transport whose `close(fd)` call reports
an error, the close operation returns failure. -/
theorem op_close_connected_can_fail :
    w_conn.connected = true ∧
    (fstrm__tcp_writer_op_close SysRet.err w_conn os_conn).1 = fstrm_res.failure := by
  decide

/-- C5, amended: on a connected transport the close operation calls `close(fd)`
exactly once, leaves `connected == false`, and returns success exactly when
that call returns 0; a second close right after it returns failure, changing
nothing and calling nothing. -/
theorem op_close_connected (ret ret2 : SysRet) (w : fstrm__tcp_writer) (os : OS)
    (h : w.connected = true) :
    (fstrm__tcp_writer_op_close ret w os).2.2.calls = os.calls ++ [Syscall.close w.fd] ∧
    (fstrm__tcp_writer_op_close ret w os).2.2.handles = os.handles.erase w.fd ∧
    (fstrm__tcp_writer_op_close ret w os).2.1 = { w with connected := false } ∧
    ((fstrm__tcp_writer_op_close ret w os).1 = fstrm_res.success ↔ ret = SysRet.ok) ∧
    fstrm__tcp_writer_op_close ret2 (fstrm__tcp_writer_op_close ret w os).2.1
        (fstrm__tcp_writer_op_close ret w os).2.2
      = (fstrm_res.failure, (fstrm__tcp_writer_op_close ret w os).2.1,
          (fstrm__tcp_writer_op_close ret w os).2.2) := by
  cases ret <;>
    simp [fstrm__tcp_writer_op_close, sys_close, SysRet.toInt, h]

/-- C5, amended, at descriptor 3: a close that the kernel serves succeeds and
releases the descriptor, and the next close fails. -/
theorem op_close_connected_witness :
    w_conn.connected = true ∧
    (fstrm__tcp_writer_op_close SysRet.ok w_conn os_conn).2.2.calls = [Syscall.close 3] ∧
    (fstrm__tcp_writer_op_close SysRet.ok w_conn os_conn).2.2.handles = [] ∧
    (fstrm__tcp_writer_op_close SysRet.ok w_conn os_conn).2.1 = { w_conn with connected := false } ∧
    ((fstrm__tcp_writer_op_close SysRet.ok w_conn os_conn).1 = fstrm_res.success ↔
      SysRet.ok = SysRet.ok) ∧
    fstrm__tcp_writer_op_close SysRet.ok (fstrm__tcp_writer_op_close SysRet.ok w_conn os_conn).2.1
        (fstrm__tcp_writer_op_close SysRet.ok w_conn os_conn).2.2
      = (fstrm_res.failure, (fstrm__tcp_writer_op_close SysRet.ok w_conn os_conn).2.1,
          (fstrm__tcp_writer_op_close SysRet.ok w_conn os_conn).2.2) :=
  ⟨rfl, op_close_connected SysRet.ok SysRet.ok w_conn os_conn rfl⟩

/-- An open that returns success leaves the transport connected. -/
theorem op_open_success_connected (p : Platform) (k : OpenEnv) (w : fstrm__tcp_writer) (os : OS)
    (h : (fstrm__tcp_writer_op_open p k w os).1 = fstrm_res.success) :
    (fstrm__tcp_writer_op_open p k w os).2.1.connected = true := by
  unfold fstrm__tcp_writer_op_open at h ⊢
  dsimp only at h ⊢
  split_ifs at h ⊢ <;> simp_all

/-- C6: open is idempotent while connected.  On a connected transport open
returns success, makes no call to the operating system and leaves the
transport as it is; hence after an open that returned success, a second and a
third open return success and keep the transport, its descriptor included,
and the operating system unchanged. -/
theorem op_open_idempotent (p : Platform) (k k2 k3 : OpenEnv) (w : fstrm__tcp_writer) (os : OS) :
    (w.connected = true →
      fstrm__tcp_writer_op_open p k w os = (fstrm_res.success, w, os)) ∧
    ((fstrm__tcp_writer_op_open p k w os).1 = fstrm_res.success →
      fstrm__tcp_writer_op_open p k2 (fstrm__tcp_writer_op_open p k w os).2.1
          (fstrm__tcp_writer_op_open p k w os).2.2
        = (fstrm_res.success, (fstrm__tcp_writer_op_open p k w os).2.1,
            (fstrm__tcp_writer_op_open p k w os).2.2) ∧
      fstrm__tcp_writer_op_open p k3
          (fstrm__tcp_writer_op_open p k2 (fstrm__tcp_writer_op_open p k w os).2.1
            (fstrm__tcp_writer_op_open p k w os).2.2).2.1
          (fstrm__tcp_writer_op_open p k2 (fstrm__tcp_writer_op_open p k w os).2.1
            (fstrm__tcp_writer_op_open p k w os).2.2).2.2
        = (fstrm_res.success, (fstrm__tcp_writer_op_open p k w os).2.1,
            (fstrm__tcp_writer_op_open p k w os).2.2)) := by
  have idem : ∀ (e : OpenEnv) (v : fstrm__tcp_writer) (o : OS), v.connected = true →
      fstrm__tcp_writer_op_open p e v o = (fstrm_res.success, v, o) := by
    intro e v o hv
    simp [fstrm__tcp_writer_op_open, hv]
  refine ⟨idem k w os, ?_⟩
  intro h
  have hc := op_open_success_connected p k w os h
  rw [idem k2 _ _ hc]
  exact ⟨rfl, idem k3 _ _ hc⟩

/-- C6 at a fresh transport: the first open allocates descriptor 4, and the
opens after it, whatever the kernel would answer, return success on that same
descriptor without a further call. -/
theorem op_open_idempotent_witness :
    (fstrm__tcp_writer_op_open platform_all env_ok w_disc os_conn).1 = fstrm_res.success ∧
    (fstrm__tcp_writer_op_open platform_all env_ok w_disc os_conn).2.1.fd = 4 ∧
    w_conn.connected = true ∧
    fstrm__tcp_writer_op_open platform_all env_refused w_conn os_conn
      = (fstrm_res.success, w_conn, os_conn) ∧
    fstrm__tcp_writer_op_open platform_all env_refused
        (fstrm__tcp_writer_op_open platform_all env_ok w_disc os_conn).2.1
        (fstrm__tcp_writer_op_open platform_all env_ok w_disc os_conn).2.2
      = (fstrm_res.success, (fstrm__tcp_writer_op_open platform_all env_ok w_disc os_conn).2.1,
          (fstrm__tcp_writer_op_open platform_all env_ok w_disc os_conn).2.2) :=
  ⟨by decide, by decide, rfl,
   (op_open_idempotent platform_all env_refused env_refused env_refused w_conn os_conn).1 rfl,
   ((op_open_idempotent platform_all env_ok env_refused env_refused w_disc os_conn).2
      (by decide)).1⟩

/-- The close-on-exec request changes nothing but the call log, to which it
adds no `socket` call. -/
theorem open_cloexec_frame (p : Platform) (k : OpenEnv) (fd : Int) (os : OS) :
    (open_cloexec p k fd os).handles = os.handles ∧
    (open_cloexec p k fd os).peers = os.peers ∧
    (open_cloexec p k fd os).sent = os.sent ∧
    ∃ l : List Syscall, (open_cloexec p k fd os).calls = os.calls ++ l ∧
      ∀ n : Nat, Syscall.socket (SocketRet.fd n) ∉ l := by
  cases hp : p.FD_CLOEXEC <;> cases hg : k.fcntl_getfd <;>
    simp [open_cloexec, hp, hg, sys_log]

/-- The descriptor allocation either yields a descriptor, which is then the
one new open descriptor and the last `socket` call logged, or yields `-1`
and opens nothing. -/
theorem open_socket_cases (p : Platform) (k : OpenEnv) (os : OS) :
    (socket_allocated p k = true ∧ ∃ (n : Nat) (l : List Syscall),
        (open_socket p k os).1 = (n : Int) ∧
        (open_socket p k os).2.handles = (n : Int) :: os.handles ∧
        (open_socket p k os).2.peers = os.peers ∧
        (open_socket p k os).2.calls = os.calls ++ l ++ [Syscall.socket (SocketRet.fd n)] ∧
        ∀ m : Nat, Syscall.socket (SocketRet.fd m) ∉ l) ∨
    (socket_allocated p k = false ∧
        (open_socket p k os).1 = -1 ∧
        (open_socket p k os).2.handles = os.handles ∧
        ∃ l : List Syscall, (open_socket p k os).2.calls = os.calls ++ l ∧
          ∀ m : Nat, Syscall.socket (SocketRet.fd m) ∉ l) := by
  rcases p with ⟨p1, p2, p3⟩
  rcases k with ⟨s1, s2, g, so, co, cl⟩
  cases s1 with
  | fd n =>
    left
    refine ⟨by simp [socket_allocated, SocketRet.isFd], n, [], ?_⟩
    have hn : ¬ ((n : Int) < 0) := by omega
    simp [open_socket, sys_socket, SocketRet.toInt]
  | error =>
    right
    simp [open_socket, sys_socket, SocketRet.toInt, socket_allocated, SocketRet.isFd]
  | einval =>
    cases p1 with
    | false =>
      right
      simp [open_socket, sys_socket, SocketRet.toInt, socket_allocated, SocketRet.isFd]
    | true =>
      cases s2 with
      | fd n =>
        left
        refine ⟨by simp [socket_allocated, SocketRet.isFd], n, [Syscall.socket SocketRet.einval], ?_⟩
        simp [open_socket, sys_socket, SocketRet.toInt]
      | einval =>
        right
        simp [open_socket, sys_socket, SocketRet.toInt, socket_allocated, SocketRet.isFd]
      | error =>
        right
        simp [open_socket, sys_socket, SocketRet.toInt, socket_allocated, SocketRet.isFd]

/-- C7: on a disconnected transport, whatever the kernel answers, open returns
success and sets `connected` exactly when the socket allocation, the
`SO_NOSIGPIPE` option (on a platform that has it) and `connect` all succeed,
and then the new descriptor is open and connected; otherwise open returns
failure, `connected` stays false, the table of open descriptors is what it was
before the call, and every descriptor a `socket` call returned during the open
was passed to `close` during the open. -/
theorem op_open_disconnected (p : Platform) (k : OpenEnv) (w : fstrm__tcp_writer) (os : OS)
    (h : w.connected = false) :
    (((fstrm__tcp_writer_op_open p k w os).1 = fstrm_res.success ∧
        (fstrm__tcp_writer_op_open p k w os).2.1.connected = true) ↔
      (socket_allocated p k = true ∧ (p.SO_NOSIGPIPE = true → k.setsockopt = SysRet.ok) ∧
        k.connect = SysRet.ok)) ∧
    ((fstrm__tcp_writer_op_open p k w os).1 = fstrm_res.success →
      (fstrm__tcp_writer_op_open p k w os).2.2.handles
          = (fstrm__tcp_writer_op_open p k w os).2.1.fd :: os.handles ∧
      (fstrm__tcp_writer_op_open p k w os).2.1.fd ∈ (fstrm__tcp_writer_op_open p k w os).2.2.peers) ∧
    ((fstrm__tcp_writer_op_open p k w os).1 ≠ fstrm_res.success →
      (fstrm__tcp_writer_op_open p k w os).1 = fstrm_res.failure ∧
      (fstrm__tcp_writer_op_open p k w os).2.1.connected = false ∧
      (fstrm__tcp_writer_op_open p k w os).2.2.handles = os.handles ∧
      ∀ n : Nat,
        Syscall.socket (SocketRet.fd n) ∈ calls_since os (fstrm__tcp_writer_op_open p k w os).2.2 →
        Syscall.close (n : Int) ∈ calls_since os (fstrm__tcp_writer_op_open p k w os).2.2) := by
  obtain ⟨hc1, hc2, hc3, lc, hc4, hc5⟩ :=
    open_cloexec_frame p k (open_socket p k os).1 (open_socket p k os).2
  rcases open_socket_cases p k os with ⟨ha, n, l, h1, h2, h3, h4, h5⟩ | ⟨ha, h1, h2, l, h4, h5⟩
  · -- a descriptor `n` was allocated
    have hn : ¬ ((n : Int) < 0) := by omega
    rw [h1] at hc1 hc2 hc3 hc4
    rw [h2] at hc1
    rw [h3] at hc2
    rw [h4] at hc4
    unfold fstrm__tcp_writer_op_open calls_since
    simp only [h, h1, hn, if_false, Bool.false_eq_true]
    cases hp : p.SO_NOSIGPIPE <;> cases hso : k.setsockopt <;> cases hco : k.connect <;>
      simp [sys_close, sys_connect, sys_log, SysRet.toInt, ha, hc1, hc2, hc4] <;>
      (intro m hm
       rcases hm with hm | hm | hm
       · exact absurd hm (h5 m)
       · simp [hm]
       · exact absurd hm (hc5 m))
  · -- no descriptor was allocated
    unfold fstrm__tcp_writer_op_open calls_since
    simp only [h, h1, ha]
    simp [h2, h4]
    intro m hm
    exact absurd hm (h5 m)

/-- C7 at a refused connection: descriptor 4 is allocated, `connect` fails,
and open returns failure with descriptor 4 closed again. -/
theorem op_open_disconnected_witness :
    w_disc.connected = false ∧
    (fstrm__tcp_writer_op_open platform_all env_refused w_disc os_conn).1 ≠ fstrm_res.success ∧
    ((fstrm__tcp_writer_op_open platform_all env_refused w_disc os_conn).1 = fstrm_res.failure ∧
      (fstrm__tcp_writer_op_open platform_all env_refused w_disc os_conn).2.1.connected = false ∧
      (fstrm__tcp_writer_op_open platform_all env_refused w_disc os_conn).2.2.handles
        = os_conn.handles ∧
      ∀ n : Nat,
        Syscall.socket (SocketRet.fd n)
            ∈ calls_since os_conn (fstrm__tcp_writer_op_open platform_all env_refused w_disc os_conn).2.2 →
        Syscall.close (n : Int)
            ∈ calls_since os_conn (fstrm__tcp_writer_op_open platform_all env_refused w_disc os_conn).2.2) :=
  ⟨rfl, by decide,
   (op_open_disconnected platform_all env_refused w_disc os_conn rfl).2.2 (by decide)⟩

/-! ## Construction -/

/-- `strchr` finds nothing exactly when the character does not occur. -/
theorem strchr_eq_none (s : List Char) (c : Char) : strchr s c = none ↔ c ∉ s := by
  induction s with
  | nil => simp [strchr]
  | cons x xs ih =>
    by_cases hx : x = c
    · simp [strchr, hx]
    · have hx2 : ¬ c = x := fun e => hx e.symm
      simp [strchr, hx, hx2, ih]

/-- In a text whose part before a `:` has no `:`, `strchr` finds that one. -/
theorem strchr_append (host rest : List Char) (h : ':' ∉ host) :
    strchr (host ++ ':' :: rest) ':' = some host.length := by
  induction host with
  | nil => simp [strchr]
  | cons x xs ih =>
    have hx : ¬ x = ':' := fun e => h (by simp [e])
    have hxs : ':' ∉ xs := fun e => h (by simp [e])
    simp [strchr, hx, ih hxs]

/-- On a text of digits the digit run is the whole text. -/
theorem digit_run_digits (s : List Char) (acc : Nat) (h : ∀ c ∈ s, isdigit c = true) :
    digit_run s acc = s.foldl (fun a c => 10 * a + (c.toNat - '0'.toNat)) acc := by
  induction s generalizing acc with
  | nil => rfl
  | cons x xs ih =>
    have hx : isdigit x = true := h x (by simp)
    have hxs : ∀ c ∈ xs, isdigit c = true := fun c hc => h c (by simp [hc])
    simp [digit_run, hx, ih _ hxs]

/-- On a text of digits `atoi` reads the number the text denotes. -/
theorem atoi_value_digits (s : List Char) (h : ∀ c ∈ s, isdigit c = true) :
    atoi_value s = (decimal_value s : Int) := by
  cases s with
  | nil => rfl
  | cons x xs =>
    have hx : isdigit x = true := h x (by simp)
    have hsp : isspace x = false := by
      cases hs : isspace x with
      | false => rfl
      | true =>
        exfalso
        simp only [isspace, Bool.or_eq_true, decide_eq_true_eq] at hs
        rcases hs with ((((e | e) | e) | e) | e) | e <;>
          (rw [e] at hx; exact absurd hx (by decide))
    have hm : ¬ x = '-' := fun e => by rw [e] at hx; exact absurd hx (by decide)
    have hp : ¬ x = '+' := fun e => by rw [e] at hx; exact absurd hx (by decide)
    simp only [atoi_value, List.dropWhile, hsp, hm, hp, if_false]
    rw [digit_run_digits _ _ h]
    rfl

/-- Read back in host byte order, a stored port below `2^16` is the port. -/
theorem ntohs_htons (lib : Libc) (v : Nat) (h : v ≤ 65535) :
    ntohs lib (htons lib (v : Int)) = v := by
  have e : ((v : Int) % 65536).toNat = v := by
    rw [Int.emod_eq_of_lt (by omega) (by omega)]
    exact Int.toNat_natCast v
  have b : bswap16 (bswap16 v % 65536) = v := by
    unfold bswap16
    have h1 : v / 256 % 256 = v / 256 := Nat.mod_eq_of_lt (by omega)
    have h2 : (v % 256 * 256 + v / 256) % 65536 = v % 256 * 256 + v / 256 :=
      Nat.mod_eq_of_lt (by omega)
    have h3 : (v % 256 * 256 + v / 256) % 256 = v / 256 := by omega
    have h4 : (v % 256 * 256 + v / 256) / 256 = v % 256 := by omega
    have h5 : v % 256 % 256 = v % 256 := by omega
    rw [h1, h2, h3, h4, h5]
    omega
  unfold ntohs htons
  rw [e]
  split
  · exact b
  · omega

/-- C8: with a non-null options object, construction returns no transport
exactly when the address is unset or its text has no `:`; an address with a
`:` yields a transport whatever its host and port parts are, and the empty
address yields none. -/
theorem init_fails_iff_no_separator (lib : Libc) (o : fstrm_tcp_writer_options) :
    (fstrm_tcp_writer_init lib (some o) = InitRun.returned none ↔
      (o.socket_addr = none ∨ ∃ a : List Char, o.socket_addr = some a ∧ ':' ∉ a)) ∧
    (∀ a : List Char, o.socket_addr = some a → ':' ∈ a →
      ∃ t : fstrm__tcp_writer, fstrm_tcp_writer_init lib (some o) = InitRun.returned (some t)) ∧
    fstrm_tcp_writer_init lib (some { socket_addr := some [] }) = InitRun.returned none := by
  rcases o with ⟨addr⟩
  refine ⟨?_, ?_, rfl⟩
  · cases addr with
    | none => simp [fstrm_tcp_writer_init]
    | some a =>
      cases hk : strchr a ':' with
      | none =>
        have := (strchr_eq_none a ':').1 hk
        simp [fstrm_tcp_writer_init, hk, this]
      | some k =>
        have : ¬ ':' ∉ a := fun hn => by
          rw [(strchr_eq_none a ':').2 hn] at hk
          exact Option.noConfusion hk
        simp [fstrm_tcp_writer_init, hk, fstrm_writer_init, this]
  · intro a ha hc
    cases hk : strchr a ':' with
    | none => exact absurd hc ((strchr_eq_none a ':').1 hk)
    | some k =>
      simp only at ha
      subst ha
      simp [fstrm_tcp_writer_init, hk, fstrm_writer_init]

/-- C8 at the address "x:y", whose host is no dotted-decimal text and whose
port is no number: construction yields a transport. -/
theorem init_fails_iff_no_separator_witness :
    ∃ t : fstrm__tcp_writer,
      fstrm_tcp_writer_init libc_le (some { socket_addr := some ['x', ':', 'y'] })
        = InitRun.returned (some t) :=
  (init_fails_iff_no_separator libc_le { socket_addr := some ['x', ':', 'y'] }).2.1
    ['x', ':', 'y'] rfl (by decide)

/-- C9 as stated fails: construction with a null options object does not
return at all, it reads `twopt->socket_addr` through the null pointer. -/
theorem init_null_options_no_clean_failure :
    fstrm_tcp_writer_init libc_le none ≠ InitRun.returned none := by
  decide

/-- C9, amended: construction with a null options object reads the
`socket_addr` field through the null pointer before any check (the header
requires a non-null options object); with a non-null options object whose
address is unset it returns no transport. -/
theorem init_null_options (lib : Libc) :
    fstrm_tcp_writer_init lib none = InitRun.null_dereference ∧
    fstrm_tcp_writer_init lib (some { socket_addr := none }) = InitRun.returned none :=
  ⟨rfl, rfl⟩

/-- C10: for an address "host:port" whose host has no `:` and whose port is
a text of decimal digits denoting at most 65535, construction yields a
transport, and its stored port, read back in host byte order, is the number
the digits denote. -/
theorem init_port_in_range (lib : Libc) (host port : List Char) (hh : ':' ∉ host)
    (hd : ∀ c ∈ port, isdigit c = true) (hv : decimal_value port ≤ 65535) :
    ∃ t : fstrm__tcp_writer,
      fstrm_tcp_writer_init lib (some { socket_addr := some (host ++ ':' :: port) })
        = InitRun.returned (some t) ∧
      ntohs lib t.sa.sin_port = decimal_value port := by
  have hk := strchr_append host port hh
  have hdrop : (host ++ ':' :: port).drop (host.length + 1) = port := by
    simp
  have hat : atoi lib port = (decimal_value port : Int) := by
    unfold atoi
    rw [atoi_value_digits port hd]
    have : (-2147483648 : Int) ≤ (decimal_value port : Int) ∧
        (decimal_value port : Int) ≤ 2147483647 := by omega
    simp [this]
  refine ⟨{ connected := false, fd := 0,
             sa := { sin_family := AF_INET,
                     sin_port := htons lib (atoi lib port),
                     s_addr := lib.inet_addr
                       ((host ++ ':' :: port).take
                         (if host.length < FSTRM_INET_LEN then host.length else FSTRM_INET_LEN)) } },
           ?_, ?_⟩
  · simp only [fstrm_tcp_writer_init, hk, fstrm_writer_init, hdrop]
  · simp only [hat]
    exact ntohs_htons lib _ hv

/-- C10 at "127.0.0.1:8080" on a little-endian host: the port read back is
8080. -/
theorem init_port_in_range_witness :
    ∃ t : fstrm__tcp_writer,
      fstrm_tcp_writer_init libc_le
          (some { socket_addr := some (['1', '2', '7', '.', '0', '.', '0', '.', '1'] ++
            ':' :: ['8', '0', '8', '0']) })
        = InitRun.returned (some t) ∧
      ntohs libc_le t.sa.sin_port = decimal_value ['8', '0', '8', '0'] :=
  init_port_in_range libc_le ['1', '2', '7', '.', '0', '.', '0', '.', '1'] ['8', '0', '8', '0']
    (by decide) (by decide) (by decide)

/-- C11: for an address whose first `:` is at index `k` (the text before it,
`host`, has `k` characters and no `:`), the host text construction hands to
`inet_addr` is the first `min k 15` characters of the address: all of `host`
when `k ≤ 15`, its first 15 characters otherwise. -/
theorem init_host_handed (lib : Libc) (host rest : List Char) (hh : ':' ∉ host) :
    ∃ t : fstrm__tcp_writer,
      fstrm_tcp_writer_init lib (some { socket_addr := some (host ++ ':' :: rest) })
        = InitRun.returned (some t) ∧
      t.sa.s_addr = lib.inet_addr (host_handed (host ++ ':' :: rest) host.length) ∧
      host_handed (host ++ ':' :: rest) host.length = host.take 15 ∧
      (host.length ≤ 15 → host_handed (host ++ ':' :: rest) host.length = host) := by
  have hk := strchr_append host rest hh
  have e : host_handed (host ++ ':' :: rest) host.length = host.take 15 := by
    unfold host_handed
    rw [List.take_append_of_le_length (Nat.min_le_left _ _)]
    rcases Nat.le_total host.length 15 with h | h
    · rw [Nat.min_eq_left h, List.take_of_length_le (Nat.le_refl _), List.take_of_length_le h]
    · rw [Nat.min_eq_right h]
  refine ⟨{ connected := false, fd := 0,
             sa := { sin_family := AF_INET,
                     sin_port := htons lib (atoi lib ((host ++ ':' :: rest).drop (host.length + 1))),
                     s_addr := lib.inet_addr
                       ((host ++ ':' :: rest).take
                         (if host.length < FSTRM_INET_LEN then host.length else FSTRM_INET_LEN)) } },
           ?_, ?_, e, ?_⟩
  · simp only [fstrm_tcp_writer_init, hk, fstrm_writer_init]
  · have : (if host.length < FSTRM_INET_LEN then host.length else FSTRM_INET_LEN)
        = min host.length 15 := by
      unfold FSTRM_INET_LEN
      split <;> omega
    simp only [this, host_handed]
  · intro h
    rw [e, List.take_of_length_le h]

/-- C11 at a host of 17 characters: `inet_addr` is handed 15 characters. -/
theorem init_host_handed_witness :
    ∃ t : fstrm__tcp_writer,
      fstrm_tcp_writer_init libc_len
          (some { socket_addr := some (['1', '2', '3', '.', '1', '2', '3', '.', '1', '2', '3', '.',
            '1', '2', '3', '4', '5'] ++ ':' :: ['8', '0']) })
        = InitRun.returned (some t) ∧
      t.sa.s_addr = 15 :=
  (init_host_handed libc_len ['1', '2', '3', '.', '1', '2', '3', '.', '1', '2', '3', '.',
      '1', '2', '3', '4', '5'] ['8', '0'] (by decide)).elim
    (fun t h => ⟨t, h.1, h.2.1.trans (by decide)⟩)

/-- C12: whatever address an options object holds, setting a null address
leaves the address unset, so that construction from these options returns no
transport; setting a non-null text leaves a copy of that text. -/
theorem set_socket_addr_stored (lib : Libc) (o : fstrm_tcp_writer_options) (t : List Char) :
    (fstrm_tcp_writer_options_set_socket_addr o none).socket_addr = none ∧
    fstrm_tcp_writer_init lib (some (fstrm_tcp_writer_options_set_socket_addr o none))
      = InitRun.returned none ∧
    (fstrm_tcp_writer_options_set_socket_addr o (some t)).socket_addr = some t :=
  ⟨rfl, rfl, rfl⟩

/-! ## Inside the write loop -/

/-- A segment array describes as many bytes as its lengths add up to. -/
theorem iov_bytes_length (mem : Nat → Char) (iov : List iovec) :
    (iov_bytes mem iov).length = iov_total iov := by
  induction iov with
  | nil => rfl
  | cons x xs ih =>
    simp only [iov_bytes, iov_total, List.map_cons, List.flatten_cons, List.length_append,
      List.sum_cons] at ih ⊢
    rw [ih]
    simp [seg_bytes]

/-- C15 (the code departs from the claim): writing "ab", "", "cde" over a
channel that takes one byte per call, the third `sendmsg` call is handed
segments describing "bcde" although "ab" has been accepted and the unsent tail
is "cde"; the socket then accepts "b" a second time.  The segment "b" left at
index 0 stays in the array that `msg.msg_iov` describes. -/
theorem op_write_offers_sent_bytes_again :
    (fstrm__tcp_writer_op_write (mem_of ['a', 'b', 'c', 'd', 'e'])
        [SendRet.accepted 1, SendRet.accepted 1, SendRet.accepted 1]
        w_conn iov_ab_cde 3 os_conn).os.calls.map (offered_bytes (mem_of ['a', 'b', 'c', 'd', 'e']))
      = [['a', 'b', 'c', 'd', 'e'], ['b', 'c', 'd', 'e'], ['b', 'c', 'd', 'e']] ∧
    (fstrm__tcp_writer_op_write (mem_of ['a', 'b', 'c', 'd', 'e'])
        [SendRet.accepted 1, SendRet.accepted 1]
        w_conn iov_ab_cde 3 os_conn).os.sent = ['a', 'b'] ∧
    (iov_bytes (mem_of ['a', 'b', 'c', 'd', 'e']) iov_ab_cde).drop 2 = ['c', 'd', 'e'] ∧
    (fstrm__tcp_writer_op_write (mem_of ['a', 'b', 'c', 'd', 'e'])
        [SendRet.accepted 1, SendRet.accepted 1, SendRet.accepted 1]
        w_conn iov_ab_cde 3 os_conn).os.sent = ['a', 'b', 'b'] := by
  decide

/-- C17: on a connected transport, when the first `sendmsg` call accepts as
many bytes as the `iovcnt` segments describe, the write returns success after
that one call, the socket has accepted exactly the bytes of the segments, and
the caller's segment array is as it was; this covers the empty list and lists
of empty segments. -/
theorem op_write_fast_path (mem : Nat → Char) (rest : List SendRet) (w : fstrm__tcp_writer)
    (arr : List iovec) (iovcnt : Nat) (os : OS) (hc : w.connected = true)
    (hlen : iovcnt ≤ arr.length) :
    fstrm__tcp_writer_op_write mem (SendRet.accepted (iov_total (arr.take iovcnt)) :: rest)
        w arr iovcnt os
      = { res := Outcome.returned fstrm_res.success, w := w, iov := arr,
          os := { os with
            sent := os.sent ++ iov_bytes mem (arr.take iovcnt),
            calls := os.calls ++ [Syscall.sendmsg w.fd (arr.take iovcnt)
              (SendRet.accepted (iov_total (arr.take iovcnt)))] } } := by
  have hl : ¬ arr.length < iovcnt := by omega
  have ht : (iov_bytes mem (arr.take iovcnt)).take (iov_total (arr.take iovcnt))
      = iov_bytes mem (arr.take iovcnt) :=
    List.take_of_length_le (by rw [iov_bytes_length])
  simp [fstrm__tcp_writer_op_write, hc, hl, write_loop, sys_sendmsg, ht]

/-- C17 at the segments "ab", "", "cde", at the empty list and at a list of two
empty segments. -/
theorem op_write_fast_path_witness :
    (fstrm__tcp_writer_op_write (mem_of ['a', 'b', 'c', 'd', 'e']) [SendRet.accepted 5]
        w_conn iov_ab_cde 3 os_conn).res = Outcome.returned fstrm_res.success ∧
    (fstrm__tcp_writer_op_write (mem_of ['a', 'b', 'c', 'd', 'e']) [SendRet.accepted 5]
        w_conn iov_ab_cde 3 os_conn).os.sent = ['a', 'b', 'c', 'd', 'e'] ∧
    (fstrm__tcp_writer_op_write (mem_of []) [SendRet.accepted 0] w_conn [] 0 os_conn).res
      = Outcome.returned fstrm_res.success ∧
    (fstrm__tcp_writer_op_write (mem_of []) [SendRet.accepted 0] w_conn
        [{ iov_base := 0, iov_len := 0 }, { iov_base := 0, iov_len := 0 }] 2 os_conn).iov
      = [{ iov_base := 0, iov_len := 0 }, { iov_base := 0, iov_len := 0 }] :=
  ⟨congrArg WriteRun.res
      (op_write_fast_path (mem_of ['a', 'b', 'c', 'd', 'e']) [] w_conn iov_ab_cde 3 os_conn rfl
        (by decide)),
   by decide,
   congrArg WriteRun.res (op_write_fast_path (mem_of []) [] w_conn [] 0 os_conn rfl (by decide)),
   congrArg WriteRun.iov
      (op_write_fast_path (mem_of []) [] w_conn
        [{ iov_base := 0, iov_len := 0 }, { iov_base := 0, iov_len := 0 }] 2 os_conn rfl
        (by decide))⟩

/-- C18 (the code departs from the claim): writing the single segment "ab"
(`iovcnt = 1`) with `sendmsg` accepting one of the two bytes offered and then
the one byte offered, the walk after the second call passes the segment and
tests `msg_iov[1].iov_len`, an entry the one-entry array does not have. -/
theorem op_write_walk_past_last_segment :
    (fstrm__tcp_writer_op_write (mem_of ['a', 'b']) [SendRet.accepted 1, SendRet.accepted 1]
        w_conn iov_ab 1 os_conn).res = Outcome.out_of_bounds ∧
    (fstrm__tcp_writer_op_write (mem_of ['a', 'b']) [SendRet.accepted 1, SendRet.accepted 1]
        w_conn iov_ab 1 os_conn).os.calls.map (offered_bytes (mem_of ['a', 'b']))
      = [['a', 'b'], ['b']] ∧
    (fstrm__tcp_writer_op_write (mem_of ['a', 'b']) [SendRet.accepted 1, SendRet.accepted 1]
        w_conn iov_ab 1 os_conn).os.sent = ['a', 'b'] ∧
    (fstrm__tcp_writer_op_write (mem_of ['a', 'b']) [SendRet.accepted 1]
        w_conn iov_ab 1 os_conn).iov = [{ iov_base := 1, iov_len := 1 }] ∧
    walk_from [{ iov_base := 1, iov_len := 1 }] 0 1 = none ∧
    walk_from [{ iov_base := 1, iov_len := 1 }, { iov_base := 7, iov_len := 9 }] 0 1 = some (1, 0) := by
  decide

/-! ## The port beyond 16 bits -/

/-- Read back in host byte order, a stored port is the port modulo `2^16`. -/
theorem ntohs_htons_mod (lib : Libc) (v : Nat) :
    ntohs lib (htons lib (v : Int)) = v % 65536 := by
  have e : ((v : Int) % 65536).toNat = v % 65536 := by omega
  have b : bswap16 (bswap16 (v % 65536) % 65536) = v % 65536 := by
    have h := ntohs_htons { lib with little_endian := true } (v % 65536) (by omega)
    have e2 : (((v % 65536 : Nat) : Int) % 65536).toNat = v % 65536 := by omega
    simpa [ntohs, htons, e2] using h
  unfold ntohs htons
  rw [e]
  split
  · exact b
  · omega

/-- A text that starts with no digit has an empty digit run. -/
theorem digit_run_no_digit (s : List Char) (h : starts_with_digit s = false) :
    digit_run s 0 = 0 := by
  cases s with
  | nil => rfl
  | cons c r =>
    have hc : isdigit c = false := h
    simp [digit_run, hc]

/-- When no digit follows the white space and sign, `atoi` reads 0. -/
theorem atoi_value_no_digit (s : List Char) (h : starts_with_digit (skip_space_sign s) = false) :
    atoi_value s = 0 := by
  unfold atoi_value
  unfold skip_space_sign at h
  cases hd : s.dropWhile isspace with
  | nil => rfl
  | cons c r =>
    rw [hd] at h
    by_cases hm : c = '-'
    · simp only [hm, true_or, if_true] at h ⊢
      simp [digit_run_no_digit r h]
    · by_cases hp : c = '+'
      · simp only [hp, or_true, if_true] at h ⊢
        have : ¬ ('+' = '-') := by decide
        simp [this, digit_run_no_digit r h]
      · have hn : ¬ (c = '-' ∨ c = '+') := fun e => e.elim hm hp
        simp only [hn, if_false] at h
        simp only [hm, hp, if_false]
        simp [digit_run_no_digit (c :: r) h]

/-- C19 as stated fails: the port text " 80" starts with no digit, and the
stored port read back is 80. -/
theorem init_port_space_not_zero :
    starts_with_digit [' ', '8', '0'] = false ∧
    ∃ t : fstrm__tcp_writer,
      fstrm_tcp_writer_init libc_le (some { socket_addr := some ['h', ':', ' ', '8', '0'] })
        = InitRun.returned (some t) ∧
      ntohs libc_le t.sa.sin_port = 80 :=
  ⟨by decide, _, rfl, by decide⟩

/-- C19, amended: for an address "host:port" whose host has no `:`,
construction yields a transport; when the port is a text of decimal digits
denoting a value `v` that fits in an `int`, the stored port read back in host
byte order is `v mod 65536`; when the port, after its leading white space and
one sign are skipped as `atoi` does, starts with no digit, the stored port is
0. -/
theorem init_port_wraps (lib : Libc) (host port : List Char) (hh : ':' ∉ host) :
    ∃ t : fstrm__tcp_writer,
      fstrm_tcp_writer_init lib (some { socket_addr := some (host ++ ':' :: port) })
        = InitRun.returned (some t) ∧
      ((∀ c ∈ port, isdigit c = true) → decimal_value port ≤ 2147483647 →
        ntohs lib t.sa.sin_port = decimal_value port % 65536) ∧
      (starts_with_digit (skip_space_sign port) = false → ntohs lib t.sa.sin_port = 0) := by
  have hk := strchr_append host port hh
  have hdrop : (host ++ ':' :: port).drop (host.length + 1) = port := by
    simp
  refine ⟨{ connected := false, fd := 0,
             sa := { sin_family := AF_INET,
                     sin_port := htons lib (atoi lib port),
                     s_addr := lib.inet_addr
                       ((host ++ ':' :: port).take
                         (if host.length < FSTRM_INET_LEN then host.length else FSTRM_INET_LEN)) } },
           ?_, ?_, ?_⟩
  · simp only [fstrm_tcp_writer_init, hk, fstrm_writer_init, hdrop]
  · intro hd hv
    have hat : atoi lib port = (decimal_value port : Int) := by
      unfold atoi
      rw [atoi_value_digits port hd]
      have : (-2147483648 : Int) ≤ (decimal_value port : Int) ∧
          (decimal_value port : Int) ≤ 2147483647 := by omega
      simp [this]
    simp only [hat]
    exact ntohs_htons_mod lib _
  · intro h0
    have hat : atoi lib port = ((0 : Nat) : Int) := by
      unfold atoi
      rw [atoi_value_no_digit port h0]
      simp
    simp only [hat]
    exact ntohs_htons_mod lib 0

/-- C19, amended, at the ports "65616" (which is `65536 + 80`) and "-x". -/
theorem init_port_wraps_witness :
    (∃ t : fstrm__tcp_writer,
      fstrm_tcp_writer_init libc_le
          (some { socket_addr := some (['h'] ++ ':' :: ['6', '5', '6', '1', '6']) })
        = InitRun.returned (some t) ∧
      ntohs libc_le t.sa.sin_port = 80) ∧
    (∃ t : fstrm__tcp_writer,
      fstrm_tcp_writer_init libc_le (some { socket_addr := some (['h'] ++ ':' :: ['-', 'x']) })
        = InitRun.returned (some t) ∧
      ntohs libc_le t.sa.sin_port = 0) :=
  ⟨(init_port_wraps libc_le ['h'] ['6', '5', '6', '1', '6'] (by decide)).elim
      (fun t h => ⟨t, h.1, (h.2.1 (by decide) (by decide)).trans (by decide)⟩),
   (init_port_wraps libc_le ['h'] ['-', 'x'] (by decide)).elim
      (fun t h => ⟨t, h.1, h.2.2 (by decide)⟩)⟩

/-! ## The state machine -/

/-- The write loop leaves the transport and the descriptor tables alone, and
adds nothing but `sendmsg` calls on the transport's descriptor to the log. -/
theorem write_loop_frame (mem : Nat → Char) (w : fstrm__tcp_writer) (iovcnt nbytes : Nat)
    (s : List SendRet) (cur : Nat) (arr : List iovec) (os : OS) :
    (write_loop mem w iovcnt nbytes s cur arr os).w = w ∧
    (write_loop mem w iovcnt nbytes s cur arr os).os.handles = os.handles ∧
    (write_loop mem w iovcnt nbytes s cur arr os).os.peers = os.peers ∧
    ∃ l : List Syscall,
      (write_loop mem w iovcnt nbytes s cur arr os).os.calls = os.calls ++ l ∧
      ∀ c ∈ l, ∃ (iov : List iovec) (r : SendRet), c = Syscall.sendmsg w.fd iov r := by
  induction s generalizing cur arr os with
  | nil => exact ⟨rfl, rfl, rfl, [], by simp [write_loop], by simp⟩
  | cons r rs ih =>
    have h1 : (sys_sendmsg mem r w.fd (arr.take iovcnt) os).handles = os.handles := by
      cases r <;> rfl
    have h2 : (sys_sendmsg mem r w.fd (arr.take iovcnt) os).peers = os.peers := by
      cases r <;> rfl
    have h3 : (sys_sendmsg mem r w.fd (arr.take iovcnt) os).calls
        = os.calls ++ [Syscall.sendmsg w.fd (arr.take iovcnt) r] := by
      cases r <;> rfl
    have stop : ∀ (o : Outcome) (a : List iovec),
        ({ res := o, w := w, iov := a,
           os := sys_sendmsg mem r w.fd (arr.take iovcnt) os } : WriteRun).w = w ∧
        ({ res := o, w := w, iov := a,
           os := sys_sendmsg mem r w.fd (arr.take iovcnt) os } : WriteRun).os.handles
          = os.handles ∧
        ({ res := o, w := w, iov := a,
           os := sys_sendmsg mem r w.fd (arr.take iovcnt) os } : WriteRun).os.peers
          = os.peers ∧
        ∃ l : List Syscall,
          ({ res := o, w := w, iov := a,
             os := sys_sendmsg mem r w.fd (arr.take iovcnt) os } : WriteRun).os.calls
            = os.calls ++ l ∧
          ∀ c ∈ l, ∃ (iov : List iovec) (r : SendRet), c = Syscall.sendmsg w.fd iov r :=
      fun o a => ⟨rfl, h1, h2, [Syscall.sendmsg w.fd (arr.take iovcnt) r], h3, by simp⟩
    have go : ∀ (c : Nat) (a : List iovec),
        (write_loop mem w iovcnt nbytes rs c a
            (sys_sendmsg mem r w.fd (arr.take iovcnt) os)).w = w ∧
        (write_loop mem w iovcnt nbytes rs c a
            (sys_sendmsg mem r w.fd (arr.take iovcnt) os)).os.handles = os.handles ∧
        (write_loop mem w iovcnt nbytes rs c a
            (sys_sendmsg mem r w.fd (arr.take iovcnt) os)).os.peers = os.peers ∧
        ∃ l : List Syscall,
          (write_loop mem w iovcnt nbytes rs c a
              (sys_sendmsg mem r w.fd (arr.take iovcnt) os)).os.calls = os.calls ++ l ∧
          ∀ c ∈ l, ∃ (iov : List iovec) (r : SendRet), c = Syscall.sendmsg w.fd iov r := by
      intro c a
      obtain ⟨e1, e2, e3, l, e4, e5⟩ := ih c a (sys_sendmsg mem r w.fd (arr.take iovcnt) os)
      refine ⟨e1, e2.trans h1, e3.trans h2, Syscall.sendmsg w.fd (arr.take iovcnt) r :: l, ?_, ?_⟩
      · rw [e4, h3]; simp
      · intro c hc
        rcases List.mem_cons.1 hc with hc | hc
        · exact ⟨_, _, hc⟩
        · exact e5 c hc
    cases r with
    | eintr => simpa only [write_loop] using go cur arr
    | error => simpa only [write_loop] using stop (Outcome.returned fstrm_res.failure) arr
    | accepted n =>
      simp only [write_loop]
      split
      · exact stop _ arr
      · split
        · exact stop _ arr
        · split
          · exact stop _ arr
          · exact go _ _

/-- C13: on a connected transport, a read or a write that returns failure
leaves the transport as it was (`connected` true, the same descriptor), leaves
the tables of open and of connected descriptors as they were, and makes no
`close` call. -/
theorem io_failure_keeps_connection (filled : Bool) (mem : Nat → Char) (script : List SendRet)
    (w : fstrm__tcp_writer) (nbytes : Nat) (arr : List iovec) (iovcnt : Nat) (os : OS)
    (hc : w.connected = true) :
    ((fstrm__tcp_writer_op_read filled w nbytes os).1 = fstrm_res.failure →
      (fstrm__tcp_writer_op_read filled w nbytes os).2.1 = w ∧
      (fstrm__tcp_writer_op_read filled w nbytes os).2.2.handles = os.handles ∧
      (fstrm__tcp_writer_op_read filled w nbytes os).2.2.peers = os.peers ∧
      ∀ c ∈ calls_since os (fstrm__tcp_writer_op_read filled w nbytes os).2.2,
        is_close c = false) ∧
    ((fstrm__tcp_writer_op_write mem script w arr iovcnt os).res
        = Outcome.returned fstrm_res.failure →
      (fstrm__tcp_writer_op_write mem script w arr iovcnt os).w = w ∧
      (fstrm__tcp_writer_op_write mem script w arr iovcnt os).os.handles = os.handles ∧
      (fstrm__tcp_writer_op_write mem script w arr iovcnt os).os.peers = os.peers ∧
      ∀ c ∈ calls_since os (fstrm__tcp_writer_op_write mem script w arr iovcnt os).os,
        is_close c = false) := by
  constructor
  · intro _
    cases filled <;>
      simp [fstrm__tcp_writer_op_read, read_bytes, sys_log, calls_since, hc, is_close]
  · intro _
    unfold fstrm__tcp_writer_op_write calls_since
    simp only [hc, Bool.true_eq_false, if_false]
    split
    · simp
    · obtain ⟨e1, e2, e3, l, e4, e5⟩ :=
        write_loop_frame mem w iovcnt (iov_total (arr.take iovcnt)) script 0 arr os
      refine ⟨e1, e2, e3, ?_⟩
      rw [e4, List.drop_left]
      intro c hcl
      obtain ⟨iov, r, e⟩ := e5 c hcl
      rw [e]
      rfl

/-- C13 at a read that does not fill the buffer and at a write whose second
`sendmsg` call fails: the transport stays connected on descriptor 3, which
stays open. -/
theorem io_failure_keeps_connection_witness :
    w_conn.connected = true ∧
    (fstrm__tcp_writer_op_read false w_conn 4 os_conn).1 = fstrm_res.failure ∧
    (fstrm__tcp_writer_op_read false w_conn 4 os_conn).2.1 = w_conn ∧
    (fstrm__tcp_writer_op_read false w_conn 4 os_conn).2.2.handles = [3] ∧
    (fstrm__tcp_writer_op_write (mem_of ['a', 'b']) [SendRet.accepted 1, SendRet.error]
        w_conn iov_ab 1 os_conn).res = Outcome.returned fstrm_res.failure ∧
    (fstrm__tcp_writer_op_write (mem_of ['a', 'b']) [SendRet.accepted 1, SendRet.error]
        w_conn iov_ab 1 os_conn).w = w_conn ∧
    (fstrm__tcp_writer_op_write (mem_of ['a', 'b']) [SendRet.accepted 1, SendRet.error]
        w_conn iov_ab 1 os_conn).os.handles = [3] :=
  ⟨rfl, by decide,
   ((io_failure_keeps_connection false (mem_of ['a', 'b']) [SendRet.accepted 1, SendRet.error]
      w_conn 4 iov_ab 1 os_conn rfl).1 (by decide)).1,
   ((io_failure_keeps_connection false (mem_of ['a', 'b']) [SendRet.accepted 1, SendRet.error]
      w_conn 4 iov_ab 1 os_conn rfl).1 (by decide)).2.1,
   by decide,
   ((io_failure_keeps_connection false (mem_of ['a', 'b']) [SendRet.accepted 1, SendRet.error]
      w_conn 4 iov_ab 1 os_conn rfl).2 (by decide)).1,
   ((io_failure_keeps_connection false (mem_of ['a', 'b']) [SendRet.accepted 1, SendRet.error]
      w_conn 4 iov_ab 1 os_conn rfl).2 (by decide)).2.1⟩

/-- The close-on-exec request adds no `close` call to the log. -/
theorem open_cloexec_no_close (p : Platform) (k : OpenEnv) (fd : Int) (os : OS) :
    ∃ l : List Syscall, (open_cloexec p k fd os).calls = os.calls ++ l ∧
      ∀ c ∈ l, is_close c = false := by
  cases hp : p.FD_CLOEXEC <;> cases hg : k.fcntl_getfd <;>
    simp [open_cloexec, hp, hg, sys_log, is_close]

/-- What an open on a disconnected transport leaves in the log: either the
transport is connected on a descriptor that a `socket` call returned, followed
by calls none of which is a `close` and a successful `connect` at the end; or
the transport is still disconnected. -/
theorem op_open_log (p : Platform) (k : OpenEnv) (w : fstrm__tcp_writer) (os : OS)
    (h : w.connected = false) :
    ((fstrm__tcp_writer_op_open p k w os).2.1.connected = true ∧
      ∃ (n : Nat) (l mid : List Syscall),
        (fstrm__tcp_writer_op_open p k w os).2.1.fd = (n : Int) ∧
        (fstrm__tcp_writer_op_open p k w os).2.1.sa = w.sa ∧
        (fstrm__tcp_writer_op_open p k w os).2.2.calls
          = os.calls ++ (l ++ (Syscall.socket (SocketRet.fd n) ::
              (mid ++ [Syscall.connect (n : Int) w.sa SysRet.ok]))) ∧
        (∀ c ∈ mid, is_close c = false) ∧
        (n : Int) ∈ (fstrm__tcp_writer_op_open p k w os).2.2.handles ∧
        (n : Int) ∈ (fstrm__tcp_writer_op_open p k w os).2.2.peers) ∨
    ((fstrm__tcp_writer_op_open p k w os).2.1.connected = false ∧
      ∃ l : List Syscall, (fstrm__tcp_writer_op_open p k w os).2.2.calls = os.calls ++ l) := by
  obtain ⟨hc1, hc2, -, -⟩ :=
    open_cloexec_frame p k (open_socket p k os).1 (open_socket p k os).2
  obtain ⟨lc, hc4, hc5⟩ :=
    open_cloexec_no_close p k (open_socket p k os).1 (open_socket p k os).2
  rcases open_socket_cases p k os with ⟨-, n, l, h1, h2, h3, h4, -⟩ | ⟨-, h1, -, l, h4, -⟩
  · have hn : ¬ ((n : Int) < 0) := by omega
    rw [h1] at hc1 hc2 hc4
    rw [h2] at hc1
    rw [h3] at hc2
    rw [h4] at hc4
    unfold fstrm__tcp_writer_op_open
    simp only [h, h1, hn, if_false, Bool.false_eq_true]
    cases hp : p.SO_NOSIGPIPE <;> cases hso : k.setsockopt <;> cases hco : k.connect
    case false.ok.ok | false.err.ok =>
      left
      refine ⟨by simp [sys_connect, SysRet.toInt], n, l, lc, ?_⟩
      simp [sys_connect, SysRet.toInt, hc1, hc2, hc4]
      exact hc5
    case true.ok.ok =>
      left
      refine ⟨by simp [sys_connect, SysRet.toInt], n, l,
        lc ++ [Syscall.setsockopt (n : Int)], ?_⟩
      simp [sys_connect, sys_log, SysRet.toInt, hc1, hc2, hc4]
      intro c hc
      rcases hc with hc | hc
      · exact hc5 c hc
      · rw [hc]; rfl
    all_goals
      right
      simp [sys_close, sys_connect, sys_log, SysRet.toInt, hc4]
  · right
    unfold fstrm__tcp_writer_op_open
    simp [h, h1, h4]

/-- The invariant survives an operation that keeps the transport and the
descriptor tables and logs no `close` call. -/
theorem fd_live_frame (log l : List Syscall) (w : fstrm__tcp_writer) (os os1 : OS)
    (hinv : fd_live log (w, os)) (hh : os1.handles = os.handles) (hp : os1.peers = os.peers)
    (hl : ∀ c ∈ l, is_close c = false) :
    fd_live (log ++ l) (w, os1) := by
  intro hc
  obtain ⟨n, pre, mid, post, e1, e2, e3, e4, e5⟩ := hinv hc
  refine ⟨n, pre, mid, post ++ l, e1, ?_, ?_, ?_, ?_⟩
  · simp only at e2 ⊢
    rw [e2]
    simp
  · intro c hm
    rw [← List.append_assoc] at hm
    rcases List.mem_append.1 hm with hm | hm
    · exact e3 c hm
    · exact hl c hm
  · simpa [hh] using e4
  · simpa [hp] using e5

/-- One operation keeps the invariant, and only adds to the log. -/
theorem fd_live_step (p : Platform) (op : Op) (log : List Syscall) (os0 : OS)
    (st : fstrm__tcp_writer × OS) (hlog : st.2.calls = os0.calls ++ log)
    (hinv : fd_live log st) :
    ∃ l : List Syscall, (Op.apply p st op).2.calls = os0.calls ++ (log ++ l) ∧
      fd_live (log ++ l) (Op.apply p st op) := by
  rcases st with ⟨w, os⟩
  simp only at hlog
  cases op with
  | op_open k =>
    cases hc : w.connected with
    | true =>
      refine ⟨[], ?_, ?_⟩
      · simp [Op.apply, fstrm__tcp_writer_op_open, hc, hlog]
      · simpa [Op.apply, fstrm__tcp_writer_op_open, hc] using hinv
    | false =>
      rcases op_open_log p k w os hc with ⟨c1, n, l, mid, e1, e2, e3, e4, e5, e6⟩ | ⟨c1, l, e3⟩
      · refine ⟨l ++ (Syscall.socket (SocketRet.fd n) ::
            (mid ++ [Syscall.connect (n : Int) w.sa SysRet.ok])), ?_, ?_⟩
        · simp only [Op.apply]
          rw [e3, hlog]
          simp
        · intro _
          refine ⟨n, log ++ l, mid, [], e1, ?_, ?_, e5, e6⟩
          · simp only [Op.apply]
            rw [e2]
            simp
          · simpa using e4
      · refine ⟨l, ?_, ?_⟩
        · simp only [Op.apply]
          rw [e3, hlog]
          simp
        · intro hcon
          simp only [Op.apply] at hcon
          rw [c1] at hcon
          exact Bool.noConfusion hcon
  | op_close ret =>
    cases hc : w.connected with
    | true =>
      refine ⟨[Syscall.close w.fd], ?_, ?_⟩
      · cases ret <;>
          simp [Op.apply, fstrm__tcp_writer_op_close, sys_close, SysRet.toInt, hc, hlog]
      · intro hcon
        cases ret <;>
          simp [Op.apply, fstrm__tcp_writer_op_close, sys_close, SysRet.toInt, hc] at hcon
    | false =>
      refine ⟨[], ?_, ?_⟩
      · simp [Op.apply, fstrm__tcp_writer_op_close, hc, hlog]
      · intro hcon
        simp [Op.apply, fstrm__tcp_writer_op_close, hc] at hcon
  | op_read filled nbytes =>
    cases hc : w.connected with
    | true =>
      refine ⟨[Syscall.read_bytes w.fd nbytes], ?_, ?_⟩
      · cases filled <;>
          simp [Op.apply, fstrm__tcp_writer_op_read, read_bytes, sys_log, hc, hlog]
      · have e : Op.apply p (w, os) (Op.op_read filled nbytes)
            = (w, sys_log (Syscall.read_bytes w.fd nbytes) os) := by
          cases filled <;> simp [Op.apply, fstrm__tcp_writer_op_read, read_bytes, hc]
        rw [e]
        exact fd_live_frame log _ w os _ hinv rfl rfl (by simp [is_close])
    | false =>
      refine ⟨[], ?_, ?_⟩
      · simp [Op.apply, fstrm__tcp_writer_op_read, hc, hlog]
      · intro hcon
        simp [Op.apply, fstrm__tcp_writer_op_read, hc] at hcon
  | op_write mem script arr iovcnt =>
    have frame : ∃ l : List Syscall,
        (fstrm__tcp_writer_op_write mem script w arr iovcnt os).w = w ∧
        (fstrm__tcp_writer_op_write mem script w arr iovcnt os).os.handles = os.handles ∧
        (fstrm__tcp_writer_op_write mem script w arr iovcnt os).os.peers = os.peers ∧
        (fstrm__tcp_writer_op_write mem script w arr iovcnt os).os.calls = os.calls ++ l ∧
        ∀ c ∈ l, is_close c = false := by
      unfold fstrm__tcp_writer_op_write
      split
      · exact ⟨[], rfl, rfl, rfl, by simp, by simp⟩
      · split
        · exact ⟨[], rfl, rfl, rfl, by simp, by simp⟩
        · obtain ⟨e1, e2, e3, l, e4, e5⟩ :=
            write_loop_frame mem w iovcnt (iov_total (arr.take iovcnt)) script 0 arr os
          refine ⟨l, e1, e2, e3, e4, ?_⟩
          intro c hcl
          obtain ⟨iov, r, e⟩ := e5 c hcl
          rw [e]
          rfl
    obtain ⟨l, e1, e2, e3, e4, e5⟩ := frame
    refine ⟨l, ?_, ?_⟩
    · simp only [Op.apply]
      rw [e4, hlog]
      simp
    · simp only [Op.apply]
      rw [e1]
      exact fd_live_frame log l w os _ hinv e2 e3 e5

/-- A sequence of operations keeps the invariant, and only adds to the log. -/
theorem fd_live_run (p : Platform) (ops : List Op) (log : List Syscall) (os0 : OS)
    (st : fstrm__tcp_writer × OS) (hlog : st.2.calls = os0.calls ++ log)
    (hinv : fd_live log st) :
    ∃ l : List Syscall, (run_ops p ops st).2.calls = os0.calls ++ l ∧
      fd_live l (run_ops p ops st) := by
  induction ops generalizing log st with
  | nil => exact ⟨log, hlog, hinv⟩
  | cons op rest ih =>
    obtain ⟨l, e1, e2⟩ := fd_live_step p op log os0 st hlog hinv
    exact ih (log ++ l) (Op.apply p st op) e1 e2

/-- C14: in every state reached from a freshly constructed transport
(`connected == false`) by any sequence of open, close, read and write calls,
whatever the kernel answers, `connected == true` implies that `fd` was
returned by a `socket` call made since construction, that a later `connect` on
it succeeded, that no `close` call was made after that `socket` call, and that
the descriptor is open and connected in the operating system. -/
theorem connected_fd_is_live (p : Platform) (ops : List Op) (w0 : fstrm__tcp_writer) (os0 : OS)
    (h0 : w0.connected = false) :
    fd_live (calls_since os0 (run_ops p ops (w0, os0)).2) (run_ops p ops (w0, os0)) := by
  obtain ⟨l, e1, e2⟩ := fd_live_run p ops [] os0 (w0, os0) (by simp)
    (fun hc => by simp [h0] at hc)
  have e : calls_since os0 (run_ops p ops (w0, os0)).2 = l := by
    unfold calls_since
    rw [e1, List.drop_left]
  rw [e]
  exact e2

/-- C14 at a refused open, an open that goes through, a read and a write: the
transport is connected on descriptor 4, which the second open allocated and
connected. -/
theorem connected_fd_is_live_witness :
    w_disc.connected = false ∧
    (run_ops platform_all
        [Op.op_open env_refused, Op.op_open env_ok, Op.op_read true 4,
         Op.op_write (mem_of ['a', 'b']) [SendRet.accepted 2] iov_ab 1]
        (w_disc, os_conn)).1.connected = true ∧
    (run_ops platform_all
        [Op.op_open env_refused, Op.op_open env_ok, Op.op_read true 4,
         Op.op_write (mem_of ['a', 'b']) [SendRet.accepted 2] iov_ab 1]
        (w_disc, os_conn)).1.fd = 4 ∧
    fd_live
      (calls_since os_conn (run_ops platform_all
        [Op.op_open env_refused, Op.op_open env_ok, Op.op_read true 4,
         Op.op_write (mem_of ['a', 'b']) [SendRet.accepted 2] iov_ab 1]
        (w_disc, os_conn)).2)
      (run_ops platform_all
        [Op.op_open env_refused, Op.op_open env_ok, Op.op_read true 4,
         Op.op_write (mem_of ['a', 'b']) [SendRet.accepted 2] iov_ab 1]
        (w_disc, os_conn)) :=
  ⟨rfl, by decide, by decide,
   connected_fd_is_live platform_all
     [Op.op_open env_refused, Op.op_open env_ok, Op.op_read true 4,
      Op.op_write (mem_of ['a', 'b']) [SendRet.accepted 2] iov_ab 1]
     w_disc os_conn rfl⟩

/-! ## Progress of the write loop -/

end Fstrm
